import Mathlib

/-!
Shallow embedding of the bitcoin-auth token library (src/auth.ts).

The repository issues and verifies pipe-delimited authentication tokens
`pubkey|scheme|timestamp|requestPath|signature`.  The elliptic-curve and
hashing primitives come from the external `@bsv/sdk` package and are treated
as a trusted collaborator: they are modelled by the abstract `Crypto`
structure below, whose fields correspond one-to-one to the library entry
points the source calls (`Utils.toArray`, `Utils.toBase64`, `Hash.sha256`,
`PrivateKey.fromWif`, `privateKey.toPublicKey().toString()`,
`PublicKey.fromString`, `BSM.sign`, `Signature.fromCompact`, `BSM.verify`,
`SignedMessage.sign`, `SignedMessage.verify`) plus JavaScript `Date` parsing.
Entry points that can throw in JavaScript are modelled with `Option`
(`none` = the call throws).  The wall clock read by the issuer
(`new Date().toISOString()`) is passed in as an explicit `now` argument.

JavaScript `token.split('|')` is embedded as `jsSplit` below, a character
level split that returns the list of maximal `'|'`-free segments, exactly
as `String.prototype.split` does for a one-character separator.
-/

set_option maxRecDepth 4000

namespace BitcoinAuth

/-- The `bodyEncoding` parameter of the source: `'hex' | 'base64' | 'utf8'`. -/
inductive BodyEncoding where
  | hex
  | base64
  | utf8
deriving DecidableEq, Repr

/-- The `scheme` parameter of `getAuthToken`: `'bsm' | 'brc77'`. -/
inductive Scheme where
  | bsm
  | brc77
deriving DecidableEq, Repr

/-- Lowercase hexadecimal digit, as produced by `Utils.toHex`. -/
def hexDigit (n : Nat) : Char :=
  if n < 10 then Char.ofNat (48 + n) else Char.ofNat (87 + n)

/-- `Utils.toHex`: byte list to lowercase hexadecimal string, two digits per
byte.  (Only ever applied to SHA-256 outputs, which are bytes.) -/
def toHex (l : List Nat) : String :=
  String.mk (l.flatMap fun b => [hexDigit (b / 16 % 16), hexDigit (b % 16)])

/-- Abstract model of the trusted `@bsv/sdk` collaborator plus JavaScript
`Date` parsing.  `Option`-valued fields model entry points that can throw
(`none` = exception) or, for `parseDate`, produce an `Invalid Date` (`NaN`). -/
structure Crypto where
  /-- `Utils.toArray(s, enc)`: decode a string to a byte array. -/
  toArray : BodyEncoding → String → List Nat
  /-- `Utils.toBase64(bytes)`. -/
  toBase64 : List Nat → String
  /-- `Hash.sha256(bytes)`. -/
  sha256 : List Nat → List Nat
  /-- `PrivateKey.fromWif(wif)`; `none` models a thrown exception. -/
  fromWif : String → Option Nat
  /-- `privateKey.toPublicKey().toString()`: compressed public key hex. -/
  pubOf : Nat → String
  /-- `PublicKey.fromString(hex)`; `none` models a thrown exception. -/
  pubParse : String → Option Nat
  /-- `BSM.sign(msg, priv)` returning the compact signature as a base64 string. -/
  bsmSign : List Nat → Nat → String
  /-- `Signature.fromCompact(sig, 'base64')`; `none` models a thrown exception. -/
  sigFromCompact : String → Option (List Nat)
  /-- `BSM.verify(msg, sig, pub)`. -/
  bsmVerify : List Nat → List Nat → Nat → Bool
  /-- `SignedMessage.sign(msg, priv)` (BRC-77), returning raw bytes. -/
  brc77Sign : List Nat → Nat → List Nat
  /-- `SignedMessage.verify(msg, sigBytes)` (BRC-77); `none` models a thrown
  exception (e.g. the version-byte mismatch raised on foreign signatures). -/
  brc77Verify : List Nat → List Nat → Option Bool
  /-- `new Date(s).getTime()` in milliseconds; `none` models `Invalid Date`. -/
  parseDate : String → Option Int

instance {ε α : Type} [DecidableEq ε] [DecidableEq α] : DecidableEq (Except ε α) :=
  fun x y =>
    match x, y with
    | .ok a, .ok b =>
      if h : a = b then isTrue (congrArg Except.ok h)
      else isFalse fun hc => h (by injection hc)
    | .ok _, .error _ => isFalse fun hc => Except.noConfusion hc
    | .error _, .ok _ => isFalse fun hc => Except.noConfusion hc
    | .error a, .error b =>
      if h : a = b then isTrue (congrArg Except.error h)
      else isFalse fun hc => h (by injection hc)

/-- JavaScript `Date` comparison `a > b`: `false` whenever either side is an
`Invalid Date` (`NaN` comparisons are always false). -/
def dateGT : Option Int → Option Int → Bool
  | some a, some b => decide (a > b)
  | _, _ => false

/-- `targetTime.setMinutes(targetTime.getMinutes() + m)`: adds `m` minutes to
a valid date and leaves an `Invalid Date` invalid. -/
def addMinutes (d : Option Int) (m : Int) : Option Int :=
  d.map (fun t => t + m * 60000)

/-- `AuthPayload` from src/types.ts: the target payload.  `body?: string` is
an optional field. -/
structure AuthPayload where
  requestPath : String
  timestamp : String
  body : Option String
deriving DecidableEq, Repr

/-- `AuthToken`: the parsed token record produced by `parseAuthToken`.  The
`scheme` field is kept as the string the parser validated, as in the source. -/
structure AuthToken where
  pubkey : String
  scheme : String
  timestamp : String
  requestPath : String
  signature : String
deriving DecidableEq, Repr

/-- The body-hash computation shared by issuer and verifier:
`body ? toHex(Hash.sha256(toArray(body, bodyEncoding))) : ''`.
JavaScript truthiness makes both an absent body and an empty-string body
take the `''` branch. -/
def bodyHash (c : Crypto) (enc : BodyEncoding) (body : Option String) : String :=
  match body with
  | none => ""
  | some b => if b = "" then "" else toHex (c.sha256 (c.toArray enc b))

/-- Character-level split, the semantics of JavaScript
`s.split(sep)` for a single-character separator. -/
def splitChar (sep : Char) : List Char → List (List Char)
  | [] => [[]]
  | c :: cs =>
    if c = sep then [] :: splitChar sep cs
    else
      match splitChar sep cs with
      | [] => [[c]]
      | h :: t => (c :: h) :: t

/-- JavaScript `token.split('|')` (for the one-character separator used by
the library). -/
def jsSplit (sep : Char) (s : String) : List String :=
  (splitChar sep s.data).map String.mk

/-- `getAuthTokenBSM` (src/auth.ts lines 23-37).  `now` is the value of
`new Date().toISOString()`; `none` models the exception thrown by
`PrivateKey.fromWif` on an invalid WIF. -/
def getAuthTokenBSM (c : Crypto) (privateKeyWif requestPath : String)
    (body : Option String) (bodyEncoding : BodyEncoding) (now : String) :
    Option String :=
  (c.fromWif privateKeyWif).map fun privateKey =>
    let pubkey := c.pubOf privateKey
    let timestamp := now
    let bh := bodyHash c bodyEncoding body
    let message := requestPath ++ "|" ++ timestamp ++ "|" ++ bh
    let signature := c.bsmSign (c.toArray .utf8 message) privateKey
    pubkey ++ "|bsm|" ++ timestamp ++ "|" ++ requestPath ++ "|" ++ signature

/-- `getAuthTokenBRC77` (src/auth.ts lines 39-52). -/
def getAuthTokenBRC77 (c : Crypto) (privateKeyWif requestPath : String)
    (body : Option String) (bodyEncoding : BodyEncoding) (now : String) :
    Option String :=
  (c.fromWif privateKeyWif).map fun privateKey =>
    let pubkey := c.pubOf privateKey
    let timestamp := now
    let bh := bodyHash c bodyEncoding body
    let message := requestPath ++ "|" ++ timestamp ++ "|" ++ bh
    let signature := c.toBase64 (c.brc77Sign (c.toArray .utf8 message) privateKey)
    pubkey ++ "|brc77|" ++ timestamp ++ "|" ++ requestPath ++ "|" ++ signature

/-- `getAuthToken` (src/auth.ts lines 54-65): scheme dispatch. -/
def getAuthToken (c : Crypto) (privateKeyWif requestPath : String)
    (scheme : Scheme) (body : Option String) (bodyEncoding : BodyEncoding)
    (now : String) : Option String :=
  if scheme = Scheme.bsm then
    getAuthTokenBSM c privateKeyWif requestPath body bodyEncoding now
  else
    getAuthTokenBRC77 c privateKeyWif requestPath body bodyEncoding now

/-- `parseAuthToken` (src/auth.ts lines 96-113): split on `|`, require
exactly 5 fields, validate the scheme literal; purely syntactic. -/
def parseAuthToken (token : String) : Option AuthToken :=
  let parts := jsSplit '|' token
  if parts.length ≠ 5 then none
  else
    let pubkey := parts.getD 0 ""
    let scheme := parts.getD 1 ""
    let timestamp := parts.getD 2 ""
    let requestPath := parts.getD 3 ""
    let signature := parts.getD 4 ""
    if scheme ≠ "bsm" ∧ scheme ≠ "brc77" then none
    else some ⟨pubkey, scheme, timestamp, requestPath, signature⟩

/-- `verifyPreRequisites` (src/auth.ts lines 115-139): one-sided timestamp
window, path equality, public-key parseability (with the try/catch folded
into the `Option`). -/
def verifyPreRequisites (c : Crypto) (parsedToken : AuthToken)
    (target : AuthPayload) (timePad : Int) : Bool :=
  let payloadTimestamp := c.parseDate parsedToken.timestamp
  let targetTime := addMinutes (c.parseDate target.timestamp) timePad
  if dateGT payloadTimestamp targetTime then false
  else if parsedToken.requestPath ≠ target.requestPath then false
  else
    match c.pubParse parsedToken.pubkey with
    | some _ => true
    | none => false

/-- `verifyAuthTokenBSM` (src/auth.ts lines 75-88).  `Except` errors model
exceptions propagating out of `Signature.fromCompact` or
`PublicKey.fromString`. -/
def verifyAuthTokenBSM (c : Crypto) (bodyEncoding : BodyEncoding)
    (parsedToken : AuthToken) (target : AuthPayload) : Except String Bool :=
  let bh := bodyHash c bodyEncoding target.body
  let message := parsedToken.requestPath ++ "|" ++ parsedToken.timestamp ++ "|" ++ bh
  match c.sigFromCompact parsedToken.signature with
  | none => .error "Signature.fromCompact"
  | some sig =>
    match c.pubParse parsedToken.pubkey with
    | none => .error "PublicKey.fromString"
    | some publicKey => .ok (c.bsmVerify (c.toArray .utf8 message) sig publicKey)

/-- `verifyAuthTokenBRC77` (src/auth.ts lines 164-175).  The BRC-77 routine
receives no public key; an `Except` error models an exception thrown by
`SignedMessage.verify` itself. -/
def verifyAuthTokenBRC77 (c : Crypto) (bodyEncoding : BodyEncoding)
    (parsedToken : AuthToken) (target : AuthPayload) : Except String Bool :=
  let bh := bodyHash c bodyEncoding target.body
  let messageToVerify :=
    c.toArray .utf8 (parsedToken.requestPath ++ "|" ++ parsedToken.timestamp ++ "|" ++ bh)
  match c.brc77Verify messageToVerify (c.toArray .base64 parsedToken.signature) with
  | none => .error "SignedMessage.verify"
  | some b => .ok b

/-- `verifyAuthToken` (src/auth.ts lines 141-162): parse, prerequisites,
scheme dispatch. -/
def verifyAuthToken (c : Crypto) (token : String) (target : AuthPayload)
    (timePad : Int) (bodyEncoding : BodyEncoding) : Except String Bool :=
  match parseAuthToken token with
  | none => .ok false
  | some parsedToken =>
    if ! verifyPreRequisites c parsedToken target timePad then .ok false
    else if parsedToken.scheme = "bsm" then
      verifyAuthTokenBSM c bodyEncoding parsedToken target
    else
      verifyAuthTokenBRC77 c bodyEncoding parsedToken target

/-! ### Properties of the character-level split -/

theorem splitChar_cons (sep c : Char) (cs : List Char) :
    splitChar sep (c :: cs) =
      if c = sep then [] :: splitChar sep cs
      else
        match splitChar sep cs with
        | [] => [[c]]
        | h :: t => (c :: h) :: t := by
  rw [splitChar]

theorem splitChar_ne_nil (sep : Char) : ∀ l : List Char, splitChar sep l ≠ []
  | [] => by simp [splitChar]
  | c :: cs => by
    unfold splitChar
    by_cases h : c = sep
    · simp [h]
    · simp only [if_neg h]
      cases h' : splitChar sep cs <;> simp

theorem splitChar_no_sep (sep : Char) :
    ∀ l : List Char, sep ∉ l → splitChar sep l = [l]
  | [], _ => rfl
  | c :: cs, h => by
    have hc : ¬ c = sep := by
      intro hh
      exact h (hh ▸ List.mem_cons_self c cs)
    have hcs : sep ∉ cs := fun hm => h (List.mem_cons_of_mem _ hm)
    unfold splitChar
    rw [if_neg hc, splitChar_no_sep sep cs hcs]

theorem splitChar_append_sep (sep : Char) :
    ∀ (a r : List Char), sep ∉ a →
      splitChar sep (a ++ sep :: r) = a :: splitChar sep r
  | [], r, _ => by simp [splitChar]
  | c :: a, r, h => by
    have hc : ¬ c = sep := by
      intro hh
      exact h (hh ▸ List.mem_cons_self c a)
    have ha : sep ∉ a := fun hm => h (List.mem_cons_of_mem _ hm)
    show splitChar sep (c :: (a ++ sep :: r)) = _
    rw [splitChar_cons, if_neg hc, splitChar_append_sep sep a r ha]

theorem length_splitChar (sep : Char) :
    ∀ l : List Char, (splitChar sep l).length = l.count sep + 1
  | [] => by simp [splitChar]
  | c :: cs => by
    have ih := length_splitChar sep cs
    unfold splitChar
    by_cases h : c = sep
    · subst h
      simp [List.count_cons, ih]
    · simp only [if_neg h]
      cases h' : splitChar sep cs with
      | nil => exact absurd h' (splitChar_ne_nil sep cs)
      | cons hd tl =>
        rw [h'] at ih
        simp only [List.length_cons] at ih ⊢
        have hcnt : (c :: cs).count sep = cs.count sep := by
          simp [List.count_cons, h]
        omega

theorem splitChar_pieces (sep : Char) :
    ∀ l : List Char, ∀ p ∈ splitChar sep l, sep ∉ p
  | [] => by
    intro p hp
    simp [splitChar] at hp
    simp [hp]
  | c :: cs => by
    intro p hp
    have ih := splitChar_pieces sep cs
    unfold splitChar at hp
    by_cases h : c = sep
    · rw [if_pos h] at hp
      rcases List.mem_cons.mp hp with h1 | h1
      · simp [h1]
      · exact ih p h1
    · rw [if_neg h] at hp
      cases h' : splitChar sep cs with
      | nil => exact absurd h' (splitChar_ne_nil sep cs)
      | cons hd tl =>
        rw [h'] at hp
        rcases List.mem_cons.mp hp with h1 | h1
        · subst h1
          intro hm
          rcases List.mem_cons.mp hm with h2 | h2
          · exact h h2.symm
          · exact ih hd (h' ▸ List.mem_cons_self hd tl) h2
        · exact ih p (h' ▸ List.mem_cons_of_mem hd h1)

/-- `requestPath` (or any token field) is free of the `|` delimiter. -/
def noBar (s : String) : Prop := '|' ∉ s.data

instance (s : String) : Decidable (noBar s) :=
  inferInstanceAs (Decidable ('|' ∉ s.data))

@[simp] theorem mk_data (s : String) : String.mk s.data = s := rfl

theorem jsSplit_five (p sc t r g : String) (hp : noBar p) (hsc : noBar sc)
    (ht : noBar t) (hr : noBar r) (hg : noBar g) :
    jsSplit '|' (p ++ "|" ++ sc ++ "|" ++ t ++ "|" ++ r ++ "|" ++ g) =
      [p, sc, t, r, g] := by
  have hdata : (p ++ "|" ++ sc ++ "|" ++ t ++ "|" ++ r ++ "|" ++ g).data
      = p.data ++ '|' :: (sc.data ++ '|' :: (t.data ++ '|' :: (r.data ++ '|' :: g.data))) := by
    simp [String.data_append]
  unfold jsSplit
  rw [hdata, splitChar_append_sep _ _ _ hp, splitChar_append_sep _ _ _ hsc,
      splitChar_append_sep _ _ _ ht, splitChar_append_sep _ _ _ hr,
      splitChar_no_sep _ _ hg]
  simp

theorem parseAuthToken_build (p sc t r g : String) (hp : noBar p)
    (hsc : noBar sc) (ht : noBar t) (hr : noBar r) (hg : noBar g)
    (hscheme : sc = "bsm" ∨ sc = "brc77") :
    parseAuthToken (p ++ "|" ++ sc ++ "|" ++ t ++ "|" ++ r ++ "|" ++ g) =
      some ⟨p, sc, t, r, g⟩ := by
  unfold parseAuthToken
  rw [jsSplit_five p sc t r g hp hsc ht hr hg]
  have hval : ¬ (sc ≠ "bsm" ∧ sc ≠ "brc77") := by
    rcases hscheme with h | h <;> simp [h]
  simp [hval]

/-! ### A concrete instantiation of the trusted library, used by witnesses

`toyCrypto` below is an executable stand-in for `@bsv/sdk` satisfying the
idealised properties (completeness, collision-freeness, signature rigidity)
that the claim theorems assume of the trusted collaborator. -/

/-- Injective fixed-width (3-component) byte encoding of a natural number,
used by the witness model as its string-to-bytes decoding. -/
def enc3 (n : Nat) : List Nat := [n / 65536, n / 256 % 256, n % 256]

theorem enc3_injective : Function.Injective enc3 := by
  intro a b h
  simp only [enc3, List.cons.injEq, and_true] at h
  obtain ⟨h1, h2, h3⟩ := h
  have ha : a = 256 * (a / 256) + a % 256 := (Nat.div_add_mod a 256).symm
  have hb : b = 256 * (b / 256) + b % 256 := (Nat.div_add_mod b 256).symm
  have ha2 : a / 256 = 256 * (a / 65536) + a / 256 % 256 := by
    rw [show (65536 : Nat) = 256 * 256 from rfl, ← Nat.div_div_eq_div_mul]
    exact (Nat.div_add_mod (a / 256) 256).symm
  have hb2 : b / 256 = 256 * (b / 65536) + b / 256 % 256 := by
    rw [show (65536 : Nat) = 256 * 256 from rfl, ← Nat.div_div_eq_div_mul]
    exact (Nat.div_add_mod (b / 256) 256).symm
  omega

theorem charToNat_injective : Function.Injective Char.toNat := by
  intro a b h
  exact Char.ext (UInt32.ext h)

theorem charToNat_lt (c : Char) : c.toNat < 1114112 := by
  rcases c.valid with h | ⟨_, h2⟩
  · exact Nat.lt_trans h (by decide)
  · exact h2

/-- The byte decoding used by the witness model for `utf8` strings. -/
def toyArr (s : String) : List Nat := s.data.flatMap fun ch => enc3 ch.toNat

theorem flatMap_enc3_injective :
    ∀ l1 l2 : List Char,
      (l1.flatMap fun ch => enc3 ch.toNat) = (l2.flatMap fun ch => enc3 ch.toNat) →
      l1 = l2
  | [], [], _ => rfl
  | [], c :: cs, h => by simp [enc3] at h
  | c :: cs, [], h => by simp [enc3] at h
  | a :: as, b :: bs, h => by
    simp only [List.flatMap_cons] at h
    have h' : enc3 a.toNat ++ (as.flatMap fun ch => enc3 ch.toNat)
        = enc3 b.toNat ++ (bs.flatMap fun ch => enc3 ch.toNat) := h
    simp only [enc3, List.cons_append, List.cons.injEq, List.nil_append] at h'
    obtain ⟨h1, h2, h3, h4⟩ := h'
    have hab : a = b := by
      apply charToNat_injective
      apply enc3_injective
      simp [enc3, h1, h2, h3]
    rw [hab, flatMap_enc3_injective as bs h4]

theorem toyArr_injective : Function.Injective toyArr := by
  intro a b h
  have hd : a.data = b.data := flatMap_enc3_injective a.data b.data h
  rw [← mk_data a, ← mk_data b, hd]

theorem toyArr_lt (s : String) : ∀ x ∈ toyArr s, x < 256 := by
  intro x hx
  rcases List.mem_flatMap.mp hx with ⟨c, _, hc⟩
  have hv := charToNat_lt c
  simp only [enc3, List.mem_cons, List.not_mem_nil, or_false] at hc
  rcases hc with h | h | h <;> subst h <;> omega

@[simp] theorem data_mk (l : List Char) : (String.mk l).data = l := rfl

theorem mk_inj {a b : List Char} (h : String.mk a = String.mk b) : a = b :=
  congrArg String.data h

theorem toyArr_ne_nil (s : String) (h : s ≠ "") : toyArr s ≠ [] := by
  intro hnil
  apply h
  have hd : s.data = [] := by
    cases hs : s.data with
    | nil => rfl
    | cons c cs =>
      unfold toyArr at hnil
      rw [hs] at hnil
      simp [enc3] at hnil
  rw [← mk_data s, hd]

/-- Numeric value of a lowercase hexadecimal digit character. -/
def hexVal (c : Char) : Nat := if c.toNat ≤ 57 then c.toNat - 48 else c.toNat - 87

theorem hexVal_hexDigit (n : Nat) (h : n < 16) : hexVal (hexDigit n) = n := by
  interval_cases n <;> decide

theorem toHex_injective :
    ∀ l1 l2 : List Nat, (∀ x ∈ l1, x < 256) → (∀ x ∈ l2, x < 256) →
      toHex l1 = toHex l2 → l1 = l2
  | [], [], _, _, _ => rfl
  | [], b :: bs, _, _, h => by
    have hd := mk_inj h
    simp at hd
  | a :: as, [], _, _, h => by
    have hd := mk_inj h
    simp at hd
  | a :: as, b :: bs, ha, hb, h => by
    have hd := mk_inj h
    simp only [List.flatMap_cons, List.cons_append, List.nil_append,
      List.cons.injEq] at hd
    obtain ⟨h1, h2, h3⟩ := hd
    have ha' : a < 256 := ha a (List.mem_cons_self a as)
    have hb' : b < 256 := hb b (List.mem_cons_self b bs)
    have e1 : a / 16 % 16 = b / 16 % 16 := by
      have := congrArg hexVal h1
      rwa [hexVal_hexDigit _ (Nat.mod_lt _ (by omega)),
        hexVal_hexDigit _ (Nat.mod_lt _ (by omega))] at this
    have e2 : a % 16 = b % 16 := by
      have := congrArg hexVal h2
      rwa [hexVal_hexDigit _ (Nat.mod_lt _ (by omega)),
        hexVal_hexDigit _ (Nat.mod_lt _ (by omega))] at this
    have hab : a = b := by
      have hda : a / 16 < 16 := by omega
      have hdb : b / 16 < 16 := by omega
      have ra : a = 16 * (a / 16) + a % 16 := (Nat.div_add_mod a 16).symm
      have rb : b = 16 * (b / 16) + b % 16 := (Nat.div_add_mod b 16).symm
      rw [Nat.mod_eq_of_lt hda, Nat.mod_eq_of_lt hdb] at e1
      omega
    have htl : as = bs := by
      apply toHex_injective as bs (fun x hx => ha x (List.mem_cons_of_mem _ hx))
        (fun x hx => hb x (List.mem_cons_of_mem _ hx))
      simp [toHex, h3]
    rw [hab, htl]

theorem toHex_cons_ne_empty (b : Nat) (l : List Nat) : toHex (b :: l) ≠ "" := by
  intro h
  have hd := congrArg String.data h
  simp [toHex] at hd

/-- Decimal reading of a digit string, the witness model of `Date` parsing. -/
def decNat (l : List Char) : Nat := l.foldl (fun acc c => acc * 10 + (c.toNat - 48)) 0

/-- Witness-model `Date` parsing: digit strings parse to their decimal value
(in milliseconds), everything else is an `Invalid Date`. -/
def toyParseDate (s : String) : Option Int :=
  if s.data ≠ [] ∧ s.data.all (fun c => c.isDigit) then some (Int.ofNat (decNat s.data))
  else none

/-- Executable witness instantiation of the trusted `@bsv/sdk` collaborator. -/
def toyCrypto : Crypto where
  toArray := fun enc s =>
    match enc with
    | .utf8 => toyArr s
    | _ => s.data.map Char.toNat
  toBase64 := fun l => String.mk (l.map Char.ofNat)
  sha256 := fun l => 2 :: l
  fromWif := fun s => if s = "Kwif" then some 7 else none
  pubOf := fun k => "02P" ++ toString k
  pubParse := fun _ => some 0
  bsmSign := fun m _k => String.mk ((1 :: m.map (fun n => n + 256)).map Char.ofNat)
  sigFromCompact := fun s => if s = "!!" then none else some (s.data.map Char.toNat)
  bsmVerify := fun m sig _pk => decide (sig = 1 :: m.map (fun n => n + 256))
  brc77Sign := fun m _k => 5 :: m.map (fun n => n + 256)
  brc77Verify := fun m a =>
    match a with
    | a0 :: rest => if a0 = 5 then some (decide (rest = m.map (fun n => n + 256))) else none
    | [] => none
  parseDate := toyParseDate

theorem toy_toArray_utf8_injective : Function.Injective (toyCrypto.toArray .utf8) :=
  toyArr_injective

theorem toy_toArray_base64_injective : Function.Injective (toyCrypto.toArray .base64) := by
  intro a b h
  have hd : a.data = b.data :=
    List.map_injective_iff.mpr charToNat_injective h
  rw [← mk_data a, ← mk_data b, hd]

theorem add256_injective : Function.Injective (fun n : Nat => n + 256) := by
  intro a b h
  have h' : a + 256 = b + 256 := h
  omega

theorem toy_bsm_unique_msg (m m' l : List Nat) (pk : Nat)
    (h1 : toyCrypto.bsmVerify m l pk = true) (h2 : toyCrypto.bsmVerify m' l pk = true) :
    m = m' := by
  simp only [toyCrypto, decide_eq_true_eq] at h1 h2
  rw [h1] at h2
  have := (List.cons.injEq _ _ _ _).mp h2 |>.2
  exact List.map_injective_iff.mpr add256_injective this

theorem toy_bsm_unique_sig (m l l' : List Nat) (pk : Nat)
    (h1 : toyCrypto.bsmVerify m l pk = true) (h2 : toyCrypto.bsmVerify m l' pk = true) :
    l = l' := by
  simp only [toyCrypto, decide_eq_true_eq] at h1 h2
  rw [h1, h2]

theorem toy_compact_injective (s s' : String) (l : List Nat)
    (h1 : toyCrypto.sigFromCompact s = some l) (h2 : toyCrypto.sigFromCompact s' = some l) :
    s = s' := by
  simp only [toyCrypto] at h1 h2
  by_cases hs : s = "!!" <;> by_cases hs' : s' = "!!" <;> simp [hs, hs'] at h1 h2
  have hd : s.data.map Char.toNat = s'.data.map Char.toNat := by rw [h1, h2]
  have := List.map_injective_iff.mpr charToNat_injective hd
  rw [← mk_data s, ← mk_data s', this]

theorem toy_b77_canon (m a : List Nat)
    (h : toyCrypto.brc77Verify m a = some true) :
    a = 5 :: m.map (fun n => n + 256) := by
  simp only [toyCrypto] at h
  cases a with
  | nil => exact absurd h (by simp)
  | cons a0 rest =>
    have h' : (if a0 = 5 then some (decide (rest = m.map (fun n => n + 256)))
        else none) = some true := h
    by_cases h5 : a0 = 5
    · rw [if_pos h5] at h'
      have hr : rest = m.map (fun n => n + 256) := by
        have := Option.some.inj h'
        exact of_decide_eq_true this
      rw [h5, hr]
    · rw [if_neg h5] at h'
      exact absurd h' (by simp)

theorem toy_brc77_unique_msg (m m' a : List Nat)
    (h1 : toyCrypto.brc77Verify m a = some true)
    (h2 : toyCrypto.brc77Verify m' a = some true) : m = m' := by
  have e1 := toy_b77_canon m a h1
  have e2 := toy_b77_canon m' a h2
  rw [e1] at e2
  have := (List.cons.injEq _ _ _ _).mp e2 |>.2
  exact List.map_injective_iff.mpr add256_injective this

theorem toy_brc77_unique_sig (m a a' : List Nat)
    (h1 : toyCrypto.brc77Verify m a = some true)
    (h2 : toyCrypto.brc77Verify m a' = some true) : a = a' := by
  rw [toy_b77_canon m a h1, toy_b77_canon m a' h2]

theorem toy_b77_total (m a : List Nat)
    (h : ∃ m0, toyCrypto.brc77Verify m0 a = some true) :
    (toyCrypto.brc77Verify m a).isSome = true := by
  obtain ⟨m0, h0⟩ := h
  rw [toy_b77_canon m0 a h0]
  simp [toyCrypto]

theorem toy_bodyHash_injective (enc : BodyEncoding) (henc : enc = .utf8) (b b' : String)
    (h : bodyHash toyCrypto enc (some b) = bodyHash toyCrypto enc (some b')) : b = b' := by
  subst henc
  by_cases hb : b = "" <;> by_cases hb' : b' = ""
  · rw [hb, hb']
  · exfalso
    rw [hb] at h
    simp only [bodyHash, if_pos rfl, if_neg hb'] at h
    exact toHex_cons_ne_empty _ _ h.symm
  · exfalso
    rw [hb'] at h
    simp only [bodyHash, if_pos rfl, if_neg hb] at h
    exact toHex_cons_ne_empty _ _ h
  · simp only [bodyHash, if_neg hb, if_neg hb'] at h
    have hsha : (toyCrypto.sha256 (toyCrypto.toArray .utf8 b))
        = toyCrypto.sha256 (toyCrypto.toArray .utf8 b') := by
      apply toHex_injective _ _ ?_ ?_ h
      · intro x hx
        rcases List.mem_cons.mp hx with h1 | h1
        · omega
        · exact toyArr_lt b x h1
      · intro x hx
        rcases List.mem_cons.mp hx with h1 | h1
        · omega
        · exact toyArr_lt b' x h1
    have harr : toyCrypto.toArray .utf8 b = toyCrypto.toArray .utf8 b' := by
      have : (2 : Nat) :: toyCrypto.toArray .utf8 b = 2 :: toyCrypto.toArray .utf8 b' := hsha
      exact (List.cons.injEq _ _ _ _).mp this |>.2
    exact toy_toArray_utf8_injective harr

/-! ### Canonical message, from the words of the specification -/

/-- From the words of the spec (section 3 / section 6): the canonical signed
message is the exact byte string
`requestPath + "|" + timestamp + "|" + bodyHashHex`. -/
def specCanonicalMessage (requestPath timestamp bodyHashHex : String) : String :=
  requestPath ++ "|" ++ timestamp ++ "|" ++ bodyHashHex

/-- From the words of claim C2 (the claim as stated): `bodyHashHex` is the
lowercase-hex SHA-256 of the decoded body, and the empty string exactly when
the body is absent. -/
def specBodyHashClaim (c : Crypto) (enc : BodyEncoding) (body : Option String) : String :=
  match body with
  | none => ""
  | some b => toHex (c.sha256 (c.toArray enc b))

/-- The amended `bodyHashHex`: empty when the body is absent or the empty
string, lowercase-hex SHA-256 of the decoded body otherwise. -/
def specBodyHashAmended (c : Crypto) (enc : BodyEncoding) (body : Option String) : String :=
  match body with
  | none => ""
  | some b => if b = "" then "" else toHex (c.sha256 (c.toArray enc b))

theorem string_ext {a b : String} (h : a.data = b.data) : a = b := by
  rw [← mk_data a, ← mk_data b, h]

theorem dateGT_self_pad (x : Option Int) (pad : Int) (h : 0 ≤ pad) :
    dateGT x (addMinutes x pad) = false := by
  cases x with
  | none => rfl
  | some t =>
    show decide (t > t + pad * 60000) = false
    simp only [decide_eq_false_iff_not]
    omega

/-- Equation lemma: `verifyAuthToken` after a successful parse. -/
theorem verifyAuthToken_parsed (c : Crypto) (token : String) (target : AuthPayload)
    (pad : Int) (enc : BodyEncoding) (tok : AuthToken)
    (h : parseAuthToken token = some tok) :
    verifyAuthToken c token target pad enc =
      if ! verifyPreRequisites c tok target pad then .ok false
      else if tok.scheme = "bsm" then verifyAuthTokenBSM c enc tok target
      else verifyAuthTokenBRC77 c enc tok target := by
  unfold verifyAuthToken
  rw [h]

/-- Equation lemma: `verifyAuthToken` after a failed parse. -/
theorem verifyAuthToken_unparsed (c : Crypto) (token : String) (target : AuthPayload)
    (pad : Int) (enc : BodyEncoding) (h : parseAuthToken token = none) :
    verifyAuthToken c token target pad enc = .ok false := by
  unfold verifyAuthToken
  rw [h]

/-- Definitional spelling of `verifyPreRequisites` on record literals. -/
theorem verifyPreRequisites_eq (c : Crypto) (pk sc ts rp sig rpath tts : String)
    (tbody : Option String) (pad : Int) :
    verifyPreRequisites c ⟨pk, sc, ts, rp, sig⟩ ⟨rpath, tts, tbody⟩ pad =
      if dateGT (c.parseDate ts) (addMinutes (c.parseDate tts) pad) then false
      else if rp ≠ rpath then false
      else
        match c.pubParse pk with
        | some _ => true
        | none => false := rfl

/-- `verifyAuthTokenBSM` when both signature decoding and key parsing
succeed. -/
theorem verifyAuthTokenBSM_ok (c : Crypto) (enc : BodyEncoding)
    (pk sc ts rp sig rpath tts : String) (tbody : Option String)
    (s : List Nat) (p : Nat)
    (h1 : c.sigFromCompact sig = some s) (h2 : c.pubParse pk = some p) :
    verifyAuthTokenBSM c enc ⟨pk, sc, ts, rp, sig⟩ ⟨rpath, tts, tbody⟩ =
      .ok (c.bsmVerify (c.toArray .utf8 (rp ++ "|" ++ ts ++ "|" ++ bodyHash c enc tbody)) s p) := by
  unfold verifyAuthTokenBSM
  rw [h1, h2]

/-- Definitional spelling of `verifyAuthTokenBRC77` on record literals. -/
theorem verifyAuthTokenBRC77_eq (c : Crypto) (enc : BodyEncoding)
    (pk sc ts rp sig rpath tts : String) (tbody : Option String) :
    verifyAuthTokenBRC77 c enc ⟨pk, sc, ts, rp, sig⟩ ⟨rpath, tts, tbody⟩ =
      match c.brc77Verify
          (c.toArray .utf8 (rp ++ "|" ++ ts ++ "|" ++ bodyHash c enc tbody))
          (c.toArray .base64 sig) with
      | none => .error "SignedMessage.verify"
      | some b => .ok b := rfl

/-- Definitional spelling of `verifyAuthTokenBSM` on record literals. -/
theorem verifyAuthTokenBSM_eq (c : Crypto) (enc : BodyEncoding)
    (pk sc ts rp sig rpath tts : String) (tbody : Option String) :
    verifyAuthTokenBSM c enc ⟨pk, sc, ts, rp, sig⟩ ⟨rpath, tts, tbody⟩ =
      match c.sigFromCompact sig with
      | none => .error "Signature.fromCompact"
      | some s =>
        match c.pubParse pk with
        | none => .error "PublicKey.fromString"
        | some p =>
          .ok (c.bsmVerify (c.toArray .utf8 (rp ++ "|" ++ ts ++ "|" ++ bodyHash c enc tbody)) s p) := rfl

theorem parse_bsm_token (p t r g : String) (hp : noBar p) (ht : noBar t)
    (hr : noBar r) (hg : noBar g) :
    parseAuthToken (p ++ "|bsm|" ++ t ++ "|" ++ r ++ "|" ++ g) =
      some ⟨p, "bsm", t, r, g⟩ := by
  have he : p ++ "|bsm|" ++ t ++ "|" ++ r ++ "|" ++ g
      = p ++ "|" ++ "bsm" ++ "|" ++ t ++ "|" ++ r ++ "|" ++ g := by
    apply string_ext
    have d1 : ("|bsm|" : String).data = ['|', 'b', 's', 'm', '|'] := rfl
    have d2 : ("|" : String).data = ['|'] := rfl
    have d3 : ("bsm" : String).data = ['b', 's', 'm'] := rfl
    simp [String.data_append, d1, d2, d3]
  rw [he, parseAuthToken_build p "bsm" t r g hp (by decide) ht hr hg (Or.inl rfl)]

theorem parse_brc77_token (p t r g : String) (hp : noBar p) (ht : noBar t)
    (hr : noBar r) (hg : noBar g) :
    parseAuthToken (p ++ "|brc77|" ++ t ++ "|" ++ r ++ "|" ++ g) =
      some ⟨p, "brc77", t, r, g⟩ := by
  have he : p ++ "|brc77|" ++ t ++ "|" ++ r ++ "|" ++ g
      = p ++ "|" ++ "brc77" ++ "|" ++ t ++ "|" ++ r ++ "|" ++ g := by
    apply string_ext
    have d1 : ("|brc77|" : String).data = ['|', 'b', 'r', 'c', '7', '7', '|'] := rfl
    have d2 : ("|" : String).data = ['|'] := rfl
    have d3 : ("brc77" : String).data = ['b', 'r', 'c', '7', '7'] := rfl
    simp [String.data_append, d1, d2, d3]
  rw [he, parseAuthToken_build p "brc77" t r g hp (by decide) ht hr hg (Or.inr rfl)]

/-- Core round-trip helper: a freshly issued token verifies against a target
carrying the same path, the issuance timestamp, and any body whose hash
agrees with the issued body hash, provided the trusted library behaves
completely on the canonical message and all serialized fields are
delimiter-free. -/
theorem verify_issue_ok (c : Crypto) (wif path now : String)
    (scheme : Scheme) (bodyI bodyT : Option String) (enc : BodyEncoding)
    (k pk : Nat) (sg : List Nat)
    (hw : c.fromWif wif = some k)
    (hbh : bodyHash c enc bodyT = bodyHash c enc bodyI)
    (hpath : noBar path) (hnow : noBar now) (hpub : noBar (c.pubOf k))
    (hpk : c.pubParse (c.pubOf k) = some pk)
    (hsigbar : noBar (c.bsmSign
      (c.toArray .utf8 (path ++ "|" ++ now ++ "|" ++ bodyHash c enc bodyI)) k))
    (hsig64bar : noBar (c.toBase64 (c.brc77Sign
      (c.toArray .utf8 (path ++ "|" ++ now ++ "|" ++ bodyHash c enc bodyI)) k)))
    (hbsm1 : c.sigFromCompact (c.bsmSign
      (c.toArray .utf8 (path ++ "|" ++ now ++ "|" ++ bodyHash c enc bodyI)) k) = some sg)
    (hbsm2 : c.bsmVerify
      (c.toArray .utf8 (path ++ "|" ++ now ++ "|" ++ bodyHash c enc bodyI)) sg pk = true)
    (hbrc : c.brc77Verify
      (c.toArray .utf8 (path ++ "|" ++ now ++ "|" ++ bodyHash c enc bodyI))
      (c.toArray .base64 (c.toBase64 (c.brc77Sign
        (c.toArray .utf8 (path ++ "|" ++ now ++ "|" ++ bodyHash c enc bodyI)) k))) = some true) :
    ∀ tok, getAuthToken c wif path scheme bodyI enc now = some tok →
      verifyAuthToken c tok ⟨path, now, bodyT⟩ 5 enc = .ok true := by
  intro tok htok
  have hdate : dateGT (c.parseDate now) (addMinutes (c.parseDate now) 5) = false :=
    dateGT_self_pad _ 5 (by norm_num)
  cases scheme with
  | bsm =>
    have htok2 : getAuthTokenBSM c wif path bodyI enc now = some tok := htok
    unfold getAuthTokenBSM at htok2
    rw [hw] at htok2
    have htok3 : some (c.pubOf k ++ "|bsm|" ++ now ++ "|" ++ path ++ "|" ++
        c.bsmSign (c.toArray .utf8 (path ++ "|" ++ now ++ "|" ++ bodyHash c enc bodyI)) k)
        = some tok := htok2
    have htok' : tok = c.pubOf k ++ "|bsm|" ++ now ++ "|" ++ path ++ "|" ++
        c.bsmSign (c.toArray .utf8 (path ++ "|" ++ now ++ "|" ++ bodyHash c enc bodyI)) k :=
      (Option.some.inj htok3).symm
    subst htok'
    rw [verifyAuthToken_parsed c _ _ 5 enc _
      (parse_bsm_token _ _ _ _ hpub hnow hpath hsigbar)]
    have hpre : verifyPreRequisites c
        ⟨c.pubOf k, "bsm", now, path,
          c.bsmSign (c.toArray .utf8 (path ++ "|" ++ now ++ "|" ++ bodyHash c enc bodyI)) k⟩
        ⟨path, now, bodyT⟩ 5 = true := by
      rw [verifyPreRequisites_eq, hdate]
      simp [hpk]
    rw [hpre]
    have hfin : verifyAuthTokenBSM c enc
        ⟨c.pubOf k, "bsm", now, path,
          c.bsmSign (c.toArray .utf8 (path ++ "|" ++ now ++ "|" ++ bodyHash c enc bodyI)) k⟩
        ⟨path, now, bodyT⟩ = .ok true := by
      rw [verifyAuthTokenBSM_ok c enc _ _ _ _ _ _ _ _ sg pk hbsm1 hpk, hbh, hbsm2]
    exact hfin
  | brc77 =>
    have htok2 : getAuthTokenBRC77 c wif path bodyI enc now = some tok := htok
    unfold getAuthTokenBRC77 at htok2
    rw [hw] at htok2
    have htok3 : some (c.pubOf k ++ "|brc77|" ++ now ++ "|" ++ path ++ "|" ++
        c.toBase64 (c.brc77Sign
          (c.toArray .utf8 (path ++ "|" ++ now ++ "|" ++ bodyHash c enc bodyI)) k))
        = some tok := htok2
    have htok' : tok = c.pubOf k ++ "|brc77|" ++ now ++ "|" ++ path ++ "|" ++
        c.toBase64 (c.brc77Sign
          (c.toArray .utf8 (path ++ "|" ++ now ++ "|" ++ bodyHash c enc bodyI)) k) :=
      (Option.some.inj htok3).symm
    subst htok'
    rw [verifyAuthToken_parsed c _ _ 5 enc _
      (parse_brc77_token _ _ _ _ hpub hnow hpath hsig64bar)]
    have hpre : verifyPreRequisites c
        ⟨c.pubOf k, "brc77", now, path,
          c.toBase64 (c.brc77Sign
            (c.toArray .utf8 (path ++ "|" ++ now ++ "|" ++ bodyHash c enc bodyI)) k)⟩
        ⟨path, now, bodyT⟩ 5 = true := by
      rw [verifyPreRequisites_eq, hdate]
      simp [hpk]
    rw [hpre]
    have hfin : verifyAuthTokenBRC77 c enc
        ⟨c.pubOf k, "brc77", now, path,
          c.toBase64 (c.brc77Sign
            (c.toArray .utf8 (path ++ "|" ++ now ++ "|" ++ bodyHash c enc bodyI)) k)⟩
        ⟨path, now, bodyT⟩ = .ok true := by
      rw [verifyAuthTokenBRC77_eq, hbh, hbrc]
    exact hfin

/-! ### Claim C1: round trip -/

/-- C1, the claim as stated, is refuted at a request path containing the
`|` delimiter: with the witness library (which satisfies every completeness
property of the trusted collaborator, as the first conjuncts show), the token
issued for path `/a|b` fails to verify against the matching target, because
the serialized token no longer splits into 5 fields. -/
theorem C1_counterexample :
    toyCrypto.fromWif "Kwif" = some 7
    ∧ toyCrypto.pubParse (toyCrypto.pubOf 7) = some 0
    ∧ toyCrypto.brc77Verify
        (toyCrypto.toArray .utf8
          (specCanonicalMessage "/a|b" "99" (bodyHash toyCrypto .utf8 none)))
        (toyCrypto.toArray .base64 (toyCrypto.toBase64 (toyCrypto.brc77Sign
          (toyCrypto.toArray .utf8
            (specCanonicalMessage "/a|b" "99" (bodyHash toyCrypto .utf8 none))) 7)))
        = some true
    ∧ verifyAuthToken toyCrypto
        ((getAuthToken toyCrypto "Kwif" "/a|b" Scheme.brc77 none .utf8 "99").getD "")
        ⟨"/a|b", "99", none⟩ 5 .utf8 = .ok false :=
  ⟨by decide, by decide, by decide, by decide⟩

/-- C1 (amended): for every syntactically valid private key, every request
path free of the `|` delimiter, every optional body and both schemes,
verifying the token produced by `getAuthToken` against a target with the
same path, the issuance timestamp and the same body (same `bodyEncoding`,
default `timePad`) returns `true` — assuming the trusted library is complete
on the canonical message and serializes keys and signatures without the
delimiter. -/
theorem C1_round_trip_delimiter_free (c : Crypto) (wif path now : String)
    (body : Option String) (enc : BodyEncoding) (scheme : Scheme)
    (k pk : Nat) (sg : List Nat)
    (hw : c.fromWif wif = some k)
    (hpath : noBar path) (hnow : noBar now) (hpub : noBar (c.pubOf k))
    (hpk : c.pubParse (c.pubOf k) = some pk)
    (hsigbar : noBar (c.bsmSign
      (c.toArray .utf8 (specCanonicalMessage path now (bodyHash c enc body))) k))
    (hsig64bar : noBar (c.toBase64 (c.brc77Sign
      (c.toArray .utf8 (specCanonicalMessage path now (bodyHash c enc body))) k)))
    (hbsm1 : c.sigFromCompact (c.bsmSign
      (c.toArray .utf8 (specCanonicalMessage path now (bodyHash c enc body))) k) = some sg)
    (hbsm2 : c.bsmVerify
      (c.toArray .utf8 (specCanonicalMessage path now (bodyHash c enc body))) sg pk = true)
    (hbrc : c.brc77Verify
      (c.toArray .utf8 (specCanonicalMessage path now (bodyHash c enc body)))
      (c.toArray .base64 (c.toBase64 (c.brc77Sign
        (c.toArray .utf8 (specCanonicalMessage path now (bodyHash c enc body))) k)))
      = some true) :
    ∀ tok, getAuthToken c wif path scheme body enc now = some tok →
      verifyAuthToken c tok ⟨path, now, body⟩ 5 enc = .ok true :=
  verify_issue_ok c wif path now scheme body body enc k pk sg hw rfl
    hpath hnow hpub hpk hsigbar hsig64bar hbsm1 hbsm2 hbrc

/-- The canonical message of the C1/C9 witness instances. -/
def w1Msg : String := specCanonicalMessage "/p" "99" (bodyHash toyCrypto .utf8 (some "B"))

/-- The BSM compact-signature bytes of the C1 witness instance. -/
def w1Sig : List Nat := 1 :: (toyCrypto.toArray .utf8 w1Msg).map (fun n => n + 256)

theorem C1_round_trip_delimiter_free_witness :
    toyCrypto.fromWif "Kwif" = some 7
    ∧ noBar "/p" ∧ noBar "99" ∧ noBar (toyCrypto.pubOf 7)
    ∧ toyCrypto.pubParse (toyCrypto.pubOf 7) = some 0
    ∧ noBar (toyCrypto.bsmSign (toyCrypto.toArray .utf8 w1Msg) 7)
    ∧ noBar (toyCrypto.toBase64 (toyCrypto.brc77Sign (toyCrypto.toArray .utf8 w1Msg) 7))
    ∧ toyCrypto.sigFromCompact (toyCrypto.bsmSign (toyCrypto.toArray .utf8 w1Msg) 7)
        = some w1Sig
    ∧ toyCrypto.bsmVerify (toyCrypto.toArray .utf8 w1Msg) w1Sig 0 = true
    ∧ toyCrypto.brc77Verify (toyCrypto.toArray .utf8 w1Msg)
        (toyCrypto.toArray .base64 (toyCrypto.toBase64
          (toyCrypto.brc77Sign (toyCrypto.toArray .utf8 w1Msg) 7))) = some true
    ∧ verifyAuthToken toyCrypto
        ((getAuthToken toyCrypto "Kwif" "/p" Scheme.brc77 (some "B") .utf8 "99").getD "")
        ⟨"/p", "99", some "B"⟩ 5 .utf8 = .ok true :=
  ⟨by decide, by decide, by decide, by decide, by decide, by decide, by decide,
    by decide, by decide, by decide,
    C1_round_trip_delimiter_free toyCrypto "Kwif" "/p" "99" (some "B") .utf8
      Scheme.brc77 7 0 w1Sig (by decide) (by decide) (by decide) (by decide)
      (by decide) (by decide) (by decide) (by decide) (by decide) (by decide)
      ((getAuthToken toyCrypto "Kwif" "/p" Scheme.brc77 (some "B") .utf8 "99").getD "")
      (by decide)⟩

/-! ### Claim C9: empty body equals absent body -/

/-- C9: because the body-hash computation tests JavaScript truthiness rather
than presence, an empty-string body hashes like an absent body on both
sides; a token issued with body `""` verifies against a target with no body
and conversely (same library-completeness assumptions as the round trip). -/
theorem C9_empty_body_equals_absent (c : Crypto) (wif path now : String)
    (enc : BodyEncoding) (scheme : Scheme) (k pk : Nat) (sg : List Nat)
    (hw : c.fromWif wif = some k)
    (hpath : noBar path) (hnow : noBar now) (hpub : noBar (c.pubOf k))
    (hpk : c.pubParse (c.pubOf k) = some pk)
    (hsigbar : noBar (c.bsmSign
      (c.toArray .utf8 (specCanonicalMessage path now "")) k))
    (hsig64bar : noBar (c.toBase64 (c.brc77Sign
      (c.toArray .utf8 (specCanonicalMessage path now "")) k)))
    (hbsm1 : c.sigFromCompact (c.bsmSign
      (c.toArray .utf8 (specCanonicalMessage path now "")) k) = some sg)
    (hbsm2 : c.bsmVerify
      (c.toArray .utf8 (specCanonicalMessage path now "")) sg pk = true)
    (hbrc : c.brc77Verify
      (c.toArray .utf8 (specCanonicalMessage path now ""))
      (c.toArray .base64 (c.toBase64 (c.brc77Sign
        (c.toArray .utf8 (specCanonicalMessage path now "")) k)))
      = some true) :
    (∀ e : BodyEncoding, bodyHash c e (some "") = "" ∧ bodyHash c e none = "")
    ∧ (∀ tok, getAuthToken c wif path scheme (some "") enc now = some tok →
        verifyAuthToken c tok ⟨path, now, none⟩ 5 enc = .ok true)
    ∧ (∀ tok, getAuthToken c wif path scheme none enc now = some tok →
        verifyAuthToken c tok ⟨path, now, some ""⟩ 5 enc = .ok true) :=
  ⟨fun _ => ⟨rfl, rfl⟩,
    verify_issue_ok c wif path now scheme (some "") none enc k pk sg hw rfl
      hpath hnow hpub hpk hsigbar hsig64bar hbsm1 hbsm2 hbrc,
    verify_issue_ok c wif path now scheme none (some "") enc k pk sg hw rfl
      hpath hnow hpub hpk hsigbar hsig64bar hbsm1 hbsm2 hbrc⟩

/-- The BSM compact-signature bytes of the C9 witness instance. -/
def w9Sig : List Nat :=
  1 :: (toyCrypto.toArray .utf8 (specCanonicalMessage "/p" "99" "")).map (fun n => n + 256)

theorem C9_empty_body_equals_absent_witness :
    toyCrypto.fromWif "Kwif" = some 7
    ∧ noBar "/p" ∧ noBar "99" ∧ noBar (toyCrypto.pubOf 7)
    ∧ toyCrypto.pubParse (toyCrypto.pubOf 7) = some 0
    ∧ (bodyHash toyCrypto .utf8 (some "") = "" ∧ bodyHash toyCrypto .utf8 none = "")
    ∧ verifyAuthToken toyCrypto
        ((getAuthToken toyCrypto "Kwif" "/p" Scheme.bsm (some "") .utf8 "99").getD "")
        ⟨"/p", "99", none⟩ 5 .utf8 = .ok true
    ∧ verifyAuthToken toyCrypto
        ((getAuthToken toyCrypto "Kwif" "/p" Scheme.bsm none .utf8 "99").getD "")
        ⟨"/p", "99", some ""⟩ 5 .utf8 = .ok true := by
  have h := C9_empty_body_equals_absent toyCrypto "Kwif" "/p" "99" .utf8
    Scheme.bsm 7 0 w9Sig (by decide) (by decide) (by decide) (by decide)
    (by decide) (by decide) (by decide) (by decide) (by decide) (by decide)
  exact ⟨by decide, by decide, by decide, by decide, by decide,
    h.1 .utf8,
    h.2.1 ((getAuthToken toyCrypto "Kwif" "/p" Scheme.bsm (some "") .utf8 "99").getD "")
      (by decide),
    h.2.2 ((getAuthToken toyCrypto "Kwif" "/p" Scheme.bsm none .utf8 "99").getD "")
      (by decide)⟩

/-! ### Claims C4, C5, C10: the timestamp window -/

/-- Equation lemma for `verifyPreRequisites` on arbitrary records. -/
theorem verifyPreRequisites_def (c : Crypto) (tok : AuthToken)
    (target : AuthPayload) (pad : Int) :
    verifyPreRequisites c tok target pad =
      if dateGT (c.parseDate tok.timestamp)
          (addMinutes (c.parseDate target.timestamp) pad) then false
      else if tok.requestPath ≠ target.requestPath then false
      else
        match c.pubParse tok.pubkey with
        | some _ => true
        | none => false := rfl

/-- C4: with both timestamps parseable, a token `timePad + 1` minutes ahead
of the target fails, one `timePad - 1` minutes ahead passes (all other
checks satisfied), and the timestamp comparison rejects exactly when the
token timestamp strictly exceeds the target timestamp plus `timePad`
minutes. -/
theorem C4_timestamp_forward_bound (c : Crypto) (s : String) (tok : AuthToken)
    (target : AuthPayload) (pad : Int) (enc : BodyEncoding) (t u : Int)
    (hp : parseAuthToken s = some tok)
    (ht : c.parseDate tok.timestamp = some t)
    (hu : c.parseDate target.timestamp = some u) :
    (t = u + (pad + 1) * 60000 → verifyAuthToken c s target pad enc = .ok false)
    ∧ (t = u + (pad - 1) * 60000 →
        tok.requestPath = target.requestPath →
        (c.pubParse tok.pubkey).isSome = true →
        (if tok.scheme = "bsm" then verifyAuthTokenBSM c enc tok target
         else verifyAuthTokenBRC77 c enc tok target) = .ok true →
        verifyAuthToken c s target pad enc = .ok true)
    ∧ (dateGT (c.parseDate tok.timestamp)
        (addMinutes (c.parseDate target.timestamp) pad) = true
        ↔ t > u + pad * 60000) := by
  refine ⟨?_, ?_, ?_⟩
  · intro hteq
    rw [verifyAuthToken_parsed c s target pad enc tok hp]
    have hgt : dateGT (c.parseDate tok.timestamp)
        (addMinutes (c.parseDate target.timestamp) pad) = true := by
      rw [ht, hu]
      show decide (t > u + pad * 60000) = true
      rw [decide_eq_true_eq]
      omega
    have hfalse : verifyPreRequisites c tok target pad = false := by
      rw [verifyPreRequisites_def, hgt]
      simp
    rw [hfalse]
    rfl
  · intro hteq hpath hpub hver
    rw [verifyAuthToken_parsed c s target pad enc tok hp]
    have hngt : dateGT (c.parseDate tok.timestamp)
        (addMinutes (c.parseDate target.timestamp) pad) = false := by
      rw [ht, hu]
      show decide (t > u + pad * 60000) = false
      rw [decide_eq_false_iff_not]
      omega
    obtain ⟨v, hv⟩ := Option.isSome_iff_exists.mp hpub
    have htrue : verifyPreRequisites c tok target pad = true := by
      rw [verifyPreRequisites_def, hngt]
      simp [hpath, hv]
    rw [htrue]
    rw [if_neg (by decide : ¬ ((! true) = true))]
    exact hver
  · rw [ht, hu]
    show decide (t > u + pad * 60000) = true ↔ t > u + pad * 60000
    exact decide_eq_true_iff

/-- C5: a token timestamp strictly earlier than the target timestamp, by any
amount, never trips the timestamp check (for a nonnegative `timePad`); with
path and key checks satisfied, verification proceeds to the scheme
dispatch. -/
theorem C5_no_backward_bound (c : Crypto) (s : String) (tok : AuthToken)
    (target : AuthPayload) (pad : Int) (enc : BodyEncoding) (t u : Int)
    (hp : parseAuthToken s = some tok)
    (ht : c.parseDate tok.timestamp = some t)
    (hu : c.parseDate target.timestamp = some u)
    (hlt : t < u) (hpad : 0 ≤ pad) :
    dateGT (c.parseDate tok.timestamp)
      (addMinutes (c.parseDate target.timestamp) pad) = false
    ∧ (tok.requestPath = target.requestPath →
        (c.pubParse tok.pubkey).isSome = true →
        verifyPreRequisites c tok target pad = true
        ∧ verifyAuthToken c s target pad enc =
            (if tok.scheme = "bsm" then verifyAuthTokenBSM c enc tok target
             else verifyAuthTokenBRC77 c enc tok target)) := by
  have hngt : dateGT (c.parseDate tok.timestamp)
      (addMinutes (c.parseDate target.timestamp) pad) = false := by
    rw [ht, hu]
    show decide (t > u + pad * 60000) = false
    rw [decide_eq_false_iff_not]
    have : 0 ≤ pad * 60000 := by positivity
    omega
  refine ⟨hngt, fun hpath hpub => ?_⟩
  obtain ⟨v, hv⟩ := Option.isSome_iff_exists.mp hpub
  have htrue : verifyPreRequisites c tok target pad = true := by
    rw [verifyPreRequisites_def, hngt]
    simp [hpath, hv]
  refine ⟨htrue, ?_⟩
  rw [verifyAuthToken_parsed c s target pad enc tok hp, htrue]
  rw [if_neg (by decide : ¬ ((! true) = true))]

/-- C10: an unparseable timestamp on either side makes the JavaScript date
comparison false, so the window check passes and verification proceeds to
the path, public-key and signature checks. -/
theorem C10_invalid_timestamp_passes (c : Crypto) (s : String) (tok : AuthToken)
    (target : AuthPayload) (pad : Int) (enc : BodyEncoding)
    (h : c.parseDate tok.timestamp = none ∨ c.parseDate target.timestamp = none) :
    dateGT (c.parseDate tok.timestamp)
      (addMinutes (c.parseDate target.timestamp) pad) = false
    ∧ verifyPreRequisites c tok target pad =
        (decide (tok.requestPath = target.requestPath) && (c.pubParse tok.pubkey).isSome)
    ∧ (parseAuthToken s = some tok → tok.requestPath = target.requestPath →
        (c.pubParse tok.pubkey).isSome = true →
        verifyAuthToken c s target pad enc =
          (if tok.scheme = "bsm" then verifyAuthTokenBSM c enc tok target
           else verifyAuthTokenBRC77 c enc tok target)) := by
  have hngt : dateGT (c.parseDate tok.timestamp)
      (addMinutes (c.parseDate target.timestamp) pad) = false := by
    rcases h with h1 | h1
    · rw [h1]
      cases addMinutes (c.parseDate target.timestamp) pad <;> rfl
    · rw [h1]
      cases c.parseDate tok.timestamp <;> rfl
  refine ⟨hngt, ?_, ?_⟩
  · rw [verifyPreRequisites_def, hngt]
    by_cases hpath : tok.requestPath = target.requestPath
    · cases hpp : c.pubParse tok.pubkey <;> simp [hpath, hpp]
    · simp [hpath]
  · intro hp hpath hpub
    obtain ⟨v, hv⟩ := Option.isSome_iff_exists.mp hpub
    have htrue : verifyPreRequisites c tok target pad = true := by
      rw [verifyPreRequisites_def, hngt]
      simp [hpath, hv]
    rw [verifyAuthToken_parsed c s target pad enc tok hp, htrue]
    rw [if_neg (by decide : ¬ ((! true) = true))]

theorem C4_timestamp_forward_bound_witness :
    parseAuthToken "02P7|brc77|420000|/p|x"
      = some ⟨"02P7", "brc77", "420000", "/p", "x"⟩
    ∧ toyCrypto.parseDate "420000" = some 420000
    ∧ toyCrypto.parseDate "60000" = some 60000
    ∧ verifyAuthToken toyCrypto "02P7|brc77|420000|/p|x"
        ⟨"/p", "60000", none⟩ 5 .utf8 = .ok false
    ∧ verifyAuthToken toyCrypto
        ((getAuthToken toyCrypto "Kwif" "/p" Scheme.brc77 none .utf8 "300000").getD "")
        ⟨"/p", "60000", none⟩ 5 .utf8 = .ok true
    ∧ (dateGT (toyCrypto.parseDate "420000") (addMinutes (toyCrypto.parseDate "60000") 5) = true
        ↔ (420000 : Int) > 60000 + 5 * 60000) := by
  have hA := C4_timestamp_forward_bound toyCrypto "02P7|brc77|420000|/p|x"
    ⟨"02P7", "brc77", "420000", "/p", "x"⟩ ⟨"/p", "60000", none⟩ 5 .utf8 420000 60000
    (by decide) (by decide) (by decide)
  have hB := C4_timestamp_forward_bound toyCrypto
    ((getAuthToken toyCrypto "Kwif" "/p" Scheme.brc77 none .utf8 "300000").getD "")
    ⟨"02P7", "brc77", "300000", "/p",
      toyCrypto.toBase64 (toyCrypto.brc77Sign (toyCrypto.toArray .utf8 "/p|300000|") 7)⟩
    ⟨"/p", "60000", none⟩ 5 .utf8 300000 60000
    (by decide) (by decide) (by decide)
  exact ⟨by decide, by decide, by decide,
    hA.1 (by norm_num),
    hB.2.1 (by norm_num) (by decide) (by decide) (by decide),
    hA.2.2⟩

theorem C5_no_backward_bound_witness :
    parseAuthToken "02P7|brc77|0|/p|x" = some ⟨"02P7", "brc77", "0", "/p", "x"⟩
    ∧ toyCrypto.parseDate "0" = some 0
    ∧ toyCrypto.parseDate "900000000" = some 900000000
    ∧ (0 : Int) < 900000000 ∧ (0 : Int) ≤ 5
    ∧ dateGT (toyCrypto.parseDate "0")
        (addMinutes (toyCrypto.parseDate "900000000") 5) = false
    ∧ verifyPreRequisites toyCrypto ⟨"02P7", "brc77", "0", "/p", "x"⟩
        ⟨"/p", "900000000", none⟩ 5 = true
    ∧ verifyAuthToken toyCrypto "02P7|brc77|0|/p|x" ⟨"/p", "900000000", none⟩ 5 .utf8
        = (if (⟨"02P7", "brc77", "0", "/p", "x"⟩ : AuthToken).scheme = "bsm" then
            verifyAuthTokenBSM toyCrypto .utf8 ⟨"02P7", "brc77", "0", "/p", "x"⟩
              ⟨"/p", "900000000", none⟩
           else
            verifyAuthTokenBRC77 toyCrypto .utf8 ⟨"02P7", "brc77", "0", "/p", "x"⟩
              ⟨"/p", "900000000", none⟩) := by
  have h := C5_no_backward_bound toyCrypto "02P7|brc77|0|/p|x"
    ⟨"02P7", "brc77", "0", "/p", "x"⟩ ⟨"/p", "900000000", none⟩ 5 .utf8 0 900000000
    (by decide) (by decide) (by decide) (by norm_num) (by norm_num)
  exact ⟨by decide, by decide, by decide, by norm_num, by norm_num,
    h.1, (h.2 (by decide) (by decide)).1, (h.2 (by decide) (by decide)).2⟩

theorem C10_invalid_timestamp_passes_witness :
    toyCrypto.parseDate "zz" = none
    ∧ dateGT (toyCrypto.parseDate "zz") (addMinutes (toyCrypto.parseDate "60000") 5) = false
    ∧ verifyPreRequisites toyCrypto ⟨"02P7", "bsm", "zz", "/p", "x"⟩
        ⟨"/p", "60000", none⟩ 5
        = (decide (("/p" : String) = "/p") && (toyCrypto.pubParse "02P7").isSome)
    ∧ verifyAuthToken toyCrypto "02P7|bsm|zz|/p|x" ⟨"/p", "60000", none⟩ 5 .utf8
        = (if (⟨"02P7", "bsm", "zz", "/p", "x"⟩ : AuthToken).scheme = "bsm" then
            verifyAuthTokenBSM toyCrypto .utf8 ⟨"02P7", "bsm", "zz", "/p", "x"⟩
              ⟨"/p", "60000", none⟩
           else
            verifyAuthTokenBRC77 toyCrypto .utf8 ⟨"02P7", "bsm", "zz", "/p", "x"⟩
              ⟨"/p", "60000", none⟩) := by
  have h := C10_invalid_timestamp_passes toyCrypto "02P7|bsm|zz|/p|x"
    ⟨"02P7", "bsm", "zz", "/p", "x"⟩ ⟨"/p", "60000", none⟩ 5 .utf8
    (Or.inl (by decide))
  exact ⟨by decide, h.1, h.2.1, h.2.2 (by decide) (by decide) (by decide)⟩

/-! ### Claims C7, C8: the parser and the delimiter collision -/

theorem parseAuthToken_length_ne (s : String)
    (h : (jsSplit '|' s).length ≠ 5) : parseAuthToken s = none := by
  simp only [parseAuthToken]
  rw [if_pos h]

theorem jsSplit_pieces (sep : Char) (t : String) :
    ∀ x ∈ jsSplit sep t, sep ∉ x.data := by
  intro x hx
  rcases List.mem_map.mp hx with ⟨p, hp, rfl⟩
  rw [data_mk]
  exact splitChar_pieces sep t.data p hp

/-- C7: `parseAuthToken` succeeds exactly on 5-field inputs whose second
field is a known scheme literal, mapping the fields in order; otherwise it
returns `none`.  The statement is purely syntactic: no `Crypto` argument is
involved. -/
theorem C7_parser_contract (s : String) :
    match jsSplit '|' s with
    | [pk, sc, ts, rp, sg] =>
      parseAuthToken s =
        if sc = "bsm" ∨ sc = "brc77" then some ⟨pk, sc, ts, rp, sg⟩ else none
    | _ => parseAuthToken s = none := by
  rcases h : jsSplit '|' s with _ | ⟨pk, _ | ⟨sc, _ | ⟨ts, _ | ⟨rp, _ | ⟨sg, _ | ⟨x, l⟩⟩⟩⟩⟩⟩
  · exact parseAuthToken_length_ne s (by rw [h]; simp)
  · exact parseAuthToken_length_ne s (by rw [h]; simp)
  · exact parseAuthToken_length_ne s (by rw [h]; simp)
  · exact parseAuthToken_length_ne s (by rw [h]; simp)
  · exact parseAuthToken_length_ne s (by rw [h]; simp)
  · show parseAuthToken s =
      if sc = "bsm" ∨ sc = "brc77" then some ⟨pk, sc, ts, rp, sg⟩ else none
    simp only [parseAuthToken, h]
    by_cases h1 : sc = "bsm" <;> by_cases h2 : sc = "brc77" <;> simp [h1, h2]
  · exact parseAuthToken_length_ne s
      (by rw [h]; simp only [List.length_cons]; omega)

theorem parse_requestPath_noBar (t : String) (tok : AuthToken)
    (h : parseAuthToken t = some tok) : '|' ∉ tok.requestPath.data := by
  rcases h5 : jsSplit '|' t with _ | ⟨pk, _ | ⟨sc, _ | ⟨ts, _ | ⟨rp, _ | ⟨sg, _ | ⟨x, l⟩⟩⟩⟩⟩⟩
  · rw [parseAuthToken_length_ne t (by rw [h5]; simp)] at h
    exact absurd h (by simp)
  · rw [parseAuthToken_length_ne t (by rw [h5]; simp)] at h
    exact absurd h (by simp)
  · rw [parseAuthToken_length_ne t (by rw [h5]; simp)] at h
    exact absurd h (by simp)
  · rw [parseAuthToken_length_ne t (by rw [h5]; simp)] at h
    exact absurd h (by simp)
  · rw [parseAuthToken_length_ne t (by rw [h5]; simp)] at h
    exact absurd h (by simp)
  · simp only [parseAuthToken, h5] at h
    norm_num at h
    obtain ⟨-, htok⟩ := h
    have hrp : tok.requestPath = rp := by rw [← htok]
    rw [hrp]
    exact jsSplit_pieces '|' t rp (by rw [h5]; simp)
  · rw [parseAuthToken_length_ne t
      (by rw [h5]; simp only [List.length_cons]; omega)] at h
    exact absurd h (by simp)

/-- C8: a request path containing the `|` delimiter makes the issued token
split into more than 5 fields, so parsing fails and verification returns
`false` against every target; conversely any token that verifies has a
target path free of the delimiter. -/
theorem C8_delimiter_collision (c : Crypto) (wif path now : String)
    (body : Option String) (enc : BodyEncoding) (scheme : Scheme)
    (hbar : '|' ∈ path.data) :
    (∀ tok, getAuthToken c wif path scheme body enc now = some tok →
      5 < (jsSplit '|' tok).length
      ∧ parseAuthToken tok = none
      ∧ ∀ (target : AuthPayload) (pad : Int) (e2 : BodyEncoding),
          verifyAuthToken c tok target pad e2 = .ok false)
    ∧ (∀ (t : String) (target : AuthPayload) (pad : Int) (e2 : BodyEncoding),
        verifyAuthToken c t target pad e2 = .ok true → '|' ∉ target.requestPath.data) := by
  constructor
  · intro tok htok
    have hcount : 5 ≤ tok.data.count '|' := by
      have hpos : 0 < path.data.count '|' := List.count_pos_iff.mpr hbar
      cases scheme with
      | bsm =>
        have htok2 : getAuthTokenBSM c wif path body enc now = some tok := htok
        unfold getAuthTokenBSM at htok2
        cases hk : c.fromWif wif with
        | none => rw [hk] at htok2; exact absurd htok2 (by simp)
        | some k =>
          rw [hk] at htok2
          have htok3 : some (c.pubOf k ++ "|bsm|" ++ now ++ "|" ++ path ++ "|" ++
              c.bsmSign (c.toArray .utf8
                (path ++ "|" ++ now ++ "|" ++ bodyHash c enc body)) k)
              = some tok := htok2
          have htok4 := (Option.some.inj htok3).symm
          subst htok4
          simp only [String.data_append, List.count_append]
          have c1 : ("|bsm|" : String).data.count '|' = 2 := by decide
          have c2 : ("|" : String).data.count '|' = 1 := by decide
          rw [c1, c2]
          omega
      | brc77 =>
        have htok2 : getAuthTokenBRC77 c wif path body enc now = some tok := htok
        unfold getAuthTokenBRC77 at htok2
        cases hk : c.fromWif wif with
        | none => rw [hk] at htok2; exact absurd htok2 (by simp)
        | some k =>
          rw [hk] at htok2
          have htok3 : some (c.pubOf k ++ "|brc77|" ++ now ++ "|" ++ path ++ "|" ++
              c.toBase64 (c.brc77Sign (c.toArray .utf8
                (path ++ "|" ++ now ++ "|" ++ bodyHash c enc body)) k))
              = some tok := htok2
          have htok4 := (Option.some.inj htok3).symm
          subst htok4
          simp only [String.data_append, List.count_append]
          have c1 : ("|brc77|" : String).data.count '|' = 2 := by decide
          have c2 : ("|" : String).data.count '|' = 1 := by decide
          rw [c1, c2]
          omega
    have hlen : (jsSplit '|' tok).length = tok.data.count '|' + 1 := by
      unfold jsSplit
      rw [List.length_map]
      exact length_splitChar '|' tok.data
    have hgt : 5 < (jsSplit '|' tok).length := by omega
    refine ⟨hgt, parseAuthToken_length_ne tok (by omega), fun target pad e2 =>
      verifyAuthToken_unparsed c tok target pad e2
        (parseAuthToken_length_ne tok (by omega))⟩
  · intro t target pad e2 hver
    cases hp : parseAuthToken t with
    | none =>
      rw [verifyAuthToken_unparsed c t target pad e2 hp] at hver
      exact absurd hver (by simp)
    | some tok =>
      rw [verifyAuthToken_parsed c t target pad e2 tok hp] at hver
      have hpre : verifyPreRequisites c tok target pad = true := by
        cases hpre : verifyPreRequisites c tok target pad with
        | true => rfl
        | false =>
          rw [hpre] at hver
          exact absurd hver (by simp)
      have hpath : tok.requestPath = target.requestPath := by
        rw [verifyPreRequisites_def] at hpre
        split at hpre
        · exact absurd hpre (by simp)
        · split at hpre
          · exact absurd hpre (by simp)
          · rename_i hne
            exact not_not.mp hne
      rw [← hpath]
      exact parse_requestPath_noBar t tok hp

theorem C8_delimiter_collision_witness :
    ('|' ∈ ("/a|b" : String).data)
    ∧ 5 < (jsSplit '|'
        ((getAuthToken toyCrypto "Kwif" "/a|b" Scheme.brc77 none .utf8 "99").getD "")).length
    ∧ parseAuthToken
        ((getAuthToken toyCrypto "Kwif" "/a|b" Scheme.brc77 none .utf8 "99").getD "") = none
    ∧ verifyAuthToken toyCrypto
        ((getAuthToken toyCrypto "Kwif" "/a|b" Scheme.brc77 none .utf8 "99").getD "")
        ⟨"/a|b", "99", none⟩ 5 .utf8 = .ok false
    ∧ ('|' ∉ ("/p" : String).data) := by
  have h := C8_delimiter_collision toyCrypto "Kwif" "/a|b" "99" none .utf8 Scheme.brc77
    (by decide)
  have h1 := h.1 ((getAuthToken toyCrypto "Kwif" "/a|b" Scheme.brc77 none .utf8 "99").getD "")
    (by decide)
  refine ⟨by decide, h1.1, h1.2.1, h1.2.2 ⟨"/a|b", "99", none⟩ 5 .utf8, ?_⟩
  exact h.2 ((getAuthToken toyCrypto "Kwif" "/p" Scheme.brc77 none .utf8 "99").getD "")
    ⟨"/p", "99", none⟩ 5 .utf8 (by decide)

/-! ### Claim C6: the error channel -/

theorem parse_scheme (t : String) (tok : AuthToken)
    (h : parseAuthToken t = some tok) :
    tok.scheme = "bsm" ∨ tok.scheme = "brc77" := by
  rcases h5 : jsSplit '|' t with _ | ⟨pk, _ | ⟨sc, _ | ⟨ts, _ | ⟨rp, _ | ⟨sg, _ | ⟨x, l⟩⟩⟩⟩⟩⟩
  · rw [parseAuthToken_length_ne t (by rw [h5]; simp)] at h
    exact absurd h (by simp)
  · rw [parseAuthToken_length_ne t (by rw [h5]; simp)] at h
    exact absurd h (by simp)
  · rw [parseAuthToken_length_ne t (by rw [h5]; simp)] at h
    exact absurd h (by simp)
  · rw [parseAuthToken_length_ne t (by rw [h5]; simp)] at h
    exact absurd h (by simp)
  · rw [parseAuthToken_length_ne t (by rw [h5]; simp)] at h
    exact absurd h (by simp)
  · simp only [parseAuthToken, h5] at h
    norm_num at h
    obtain ⟨hcond, htok⟩ := h
    have hsc : tok.scheme = sc := by rw [← htok]
    by_cases hb : sc = "bsm"
    · exact Or.inl (hsc.trans hb)
    · exact Or.inr (hsc.trans (hcond hb))
  · rw [parseAuthToken_length_ne t
      (by rw [h5]; simp only [List.length_cons]; omega)] at h
    exact absurd h (by simp)

/-- C6: malformed tokens (wrong field count or unknown scheme) always parse
to `none` and verify to `false`, never raising; the only runs of
`verifyAuthToken` that end in an exception come from the declared scheme's
own signature processing — `Signature.fromCompact` for a `bsm` token,
`SignedMessage.verify` for a `brc77` token. -/
theorem C6_error_channel (c : Crypto) :
    (∀ s : String,
      ((jsSplit '|' s).length ≠ 5
        ∨ ∃ pk sc ts rp sg, jsSplit '|' s = [pk, sc, ts, rp, sg]
            ∧ sc ≠ "bsm" ∧ sc ≠ "brc77") →
      parseAuthToken s = none
      ∧ ∀ (target : AuthPayload) (pad : Int) (enc : BodyEncoding),
          verifyAuthToken c s target pad enc = .ok false)
    ∧ (∀ (s : String) (target : AuthPayload) (pad : Int) (enc : BodyEncoding) (e : String),
        verifyAuthToken c s target pad enc = .error e →
        ∃ tok, parseAuthToken s = some tok
          ∧ ((tok.scheme = "bsm" ∧ c.sigFromCompact tok.signature = none)
             ∨ (tok.scheme = "brc77"
                ∧ c.brc77Verify
                    (c.toArray .utf8 (tok.requestPath ++ "|" ++ tok.timestamp ++ "|"
                      ++ bodyHash c enc target.body))
                    (c.toArray .base64 tok.signature) = none))) := by
  constructor
  · intro s hmal
    have hnone : parseAuthToken s = none := by
      rcases hmal with h | ⟨pk, sc, ts, rp, sg, h5, hb, hb7⟩
      · exact parseAuthToken_length_ne s h
      · simp [parseAuthToken, h5, hb, hb7]
    exact ⟨hnone, fun target pad enc => verifyAuthToken_unparsed c s target pad enc hnone⟩
  · intro s target pad enc e herr
    cases hp : parseAuthToken s with
    | none =>
      rw [verifyAuthToken_unparsed c s target pad enc hp] at herr
      exact absurd herr (by simp)
    | some tok =>
      refine ⟨tok, rfl, ?_⟩
      rw [verifyAuthToken_parsed c s target pad enc tok hp] at herr
      cases hpreb : verifyPreRequisites c tok target pad with
      | false =>
        rw [hpreb] at herr
        simp at herr
      | true =>
        rw [hpreb] at herr
        rw [if_neg (by decide : ¬ ((! true) = true))] at herr
        by_cases hsc : tok.scheme = "bsm"
        · rw [if_pos hsc] at herr
          refine Or.inl ⟨hsc, ?_⟩
          cases hfc : c.sigFromCompact tok.signature with
          | none => rfl
          | some sgv =>
            exfalso
            have hpub : ∃ v, c.pubParse tok.pubkey = some v := by
              rw [verifyPreRequisites_def] at hpreb
              split at hpreb
              · exact absurd hpreb (by simp)
              · split at hpreb
                · exact absurd hpreb (by simp)
                · cases hpp : c.pubParse tok.pubkey with
                  | some v => exact ⟨v, rfl⟩
                  | none =>
                    rw [hpp] at hpreb
                    exact absurd hpreb (by simp)
            obtain ⟨v, hv⟩ := hpub
            unfold verifyAuthTokenBSM at herr
            rw [hfc, hv] at herr
            simp at herr
        · rw [if_neg hsc] at herr
          have hsc7 : tok.scheme = "brc77" :=
            (parse_scheme s tok hp).resolve_left hsc
          refine Or.inr ⟨hsc7, ?_⟩
          unfold verifyAuthTokenBRC77 at herr
          cases hbv : c.brc77Verify
              (c.toArray .utf8 (tok.requestPath ++ "|" ++ tok.timestamp ++ "|"
                ++ bodyHash c enc target.body))
              (c.toArray .base64 tok.signature) with
          | none => rfl
          | some b =>
            exfalso
            simp [hbv] at herr

theorem C6_error_channel_witness :
    (parseAuthToken "abc" = none
      ∧ verifyAuthToken toyCrypto "abc" ⟨"/p", "9", none⟩ 5 .utf8 = .ok false)
    ∧ verifyAuthToken toyCrypto "02P7|bsm|9|/p|!!" ⟨"/p", "9", none⟩ 5 .utf8
        = .error "Signature.fromCompact"
    ∧ ∃ tok, parseAuthToken "02P7|bsm|9|/p|!!" = some tok
        ∧ ((tok.scheme = "bsm" ∧ toyCrypto.sigFromCompact tok.signature = none)
           ∨ (tok.scheme = "brc77"
              ∧ toyCrypto.brc77Verify
                  (toyCrypto.toArray .utf8 (tok.requestPath ++ "|" ++ tok.timestamp ++ "|"
                    ++ bodyHash toyCrypto .utf8 none))
                  (toyCrypto.toArray .base64 tok.signature) = none)) := by
  have h := C6_error_channel toyCrypto
  have h1 := h.1 "abc" (Or.inl (by decide))
  refine ⟨⟨h1.1, h1.2 ⟨"/p", "9", none⟩ 5 .utf8⟩, by decide, ?_⟩
  exact h.2 "02P7|bsm|9|/p|!!" ⟨"/p", "9", none⟩ 5 .utf8 "Signature.fromCompact" (by decide)

/-! ### Claim C2: canonical message agreement -/

/-- C2, the claim as stated, is refuted at a present-but-empty body: the
claim prescribes `bodyHashHex` = lowercase-hex SHA-256 of the decoded body
whenever the body is present, but for `body = ""` JavaScript truthiness
makes the code use the empty hash, so the issued token differs from the
claim-prescribed one (last conjunct shows the amended hash is the one
actually signed). -/
theorem C2_counterexample :
    toyCrypto.fromWif "Kwif" = some 7
    ∧ specBodyHashClaim toyCrypto .utf8 (some "") ≠ ""
    ∧ getAuthTokenBSM toyCrypto "Kwif" "/p" (some "") .utf8 "99"
        ≠ some (toyCrypto.pubOf 7 ++ "|bsm|" ++ "99" ++ "|" ++ "/p" ++ "|" ++
            toyCrypto.bsmSign (toyCrypto.toArray .utf8
              (specCanonicalMessage "/p" "99"
                (specBodyHashClaim toyCrypto .utf8 (some "")))) 7)
    ∧ getAuthTokenBSM toyCrypto "Kwif" "/p" (some "") .utf8 "99"
        = some (toyCrypto.pubOf 7 ++ "|bsm|" ++ "99" ++ "|" ++ "/p" ++ "|" ++
            toyCrypto.bsmSign (toyCrypto.toArray .utf8
              (specCanonicalMessage "/p" "99"
                (specBodyHashAmended toyCrypto .utf8 (some "")))) 7) :=
  ⟨by decide, by decide, by decide, by decide⟩

/-- C2 (amended): issuer and verifier both operate on exactly
`requestPath + "|" + timestamp + "|" + bodyHashHex`, where `bodyHashHex` is
the lowercase-hex SHA-256 of the decoded body and the empty string when the
body is absent *or empty*; the verifier rebuilds the message from the token's
own `requestPath` and `timestamp` together with the target's body. -/
theorem C2_canonical_message (c : Crypto) (wif path now : String)
    (body : Option String) (enc : BodyEncoding) (k : Nat)
    (hw : c.fromWif wif = some k) :
    (∀ (b : Option String) (e : BodyEncoding),
      bodyHash c e b = specBodyHashAmended c e b)
    ∧ getAuthTokenBSM c wif path body enc now
        = some (c.pubOf k ++ "|bsm|" ++ now ++ "|" ++ path ++ "|" ++
            c.bsmSign (c.toArray .utf8
              (specCanonicalMessage path now (specBodyHashAmended c enc body))) k)
    ∧ getAuthTokenBRC77 c wif path body enc now
        = some (c.pubOf k ++ "|brc77|" ++ now ++ "|" ++ path ++ "|" ++
            c.toBase64 (c.brc77Sign (c.toArray .utf8
              (specCanonicalMessage path now (specBodyHashAmended c enc body))) k))
    ∧ (∀ (tok : AuthToken) (target : AuthPayload),
        verifyAuthTokenBSM c enc tok target =
          match c.sigFromCompact tok.signature with
          | none => .error "Signature.fromCompact"
          | some s =>
            match c.pubParse tok.pubkey with
            | none => .error "PublicKey.fromString"
            | some p =>
              .ok (c.bsmVerify (c.toArray .utf8
                (specCanonicalMessage tok.requestPath tok.timestamp
                  (specBodyHashAmended c enc target.body))) s p))
    ∧ (∀ (tok : AuthToken) (target : AuthPayload),
        verifyAuthTokenBRC77 c enc tok target =
          match c.brc77Verify (c.toArray .utf8
              (specCanonicalMessage tok.requestPath tok.timestamp
                (specBodyHashAmended c enc target.body)))
              (c.toArray .base64 tok.signature) with
          | none => .error "SignedMessage.verify"
          | some b => .ok b) := by
  refine ⟨?_, ?_, ?_, ?_, ?_⟩
  · intro b e
    cases b with
    | none => rfl
    | some bs => rfl
  · cases body with
    | none =>
      unfold getAuthTokenBSM
      rw [hw]
      rfl
    | some bs =>
      unfold getAuthTokenBSM
      rw [hw]
      rfl
  · cases body with
    | none =>
      unfold getAuthTokenBRC77
      rw [hw]
      rfl
    | some bs =>
      unfold getAuthTokenBRC77
      rw [hw]
      rfl
  · intro tok target
    obtain ⟨tp, tt, tb⟩ := target
    cases tb with
    | none => rfl
    | some bs => rfl
  · intro tok target
    obtain ⟨tp, tt, tb⟩ := target
    cases tb with
    | none => rfl
    | some bs => rfl

theorem C2_canonical_message_witness :
    toyCrypto.fromWif "Kwif" = some 7
    ∧ getAuthTokenBSM toyCrypto "Kwif" "/p" (some "") .utf8 "99"
        = some (toyCrypto.pubOf 7 ++ "|bsm|" ++ "99" ++ "|" ++ "/p" ++ "|" ++
            toyCrypto.bsmSign (toyCrypto.toArray .utf8
              (specCanonicalMessage "/p" "99"
                (specBodyHashAmended toyCrypto .utf8 (some "")))) 7) :=
  ⟨by decide,
    (C2_canonical_message toyCrypto "Kwif" "/p" "99" (some "") .utf8 7 (by decide)).2.1⟩

/-! ### Claim C3: tamper sensitivity -/

theorem string_append_left_cancel {a b1 b2 : String} (h : a ++ b1 = a ++ b2) :
    b1 = b2 := by
  have hd := congrArg String.data h
  simp only [String.data_append] at hd
  exact string_ext (List.append_cancel_left hd)

theorem verifyPreRequisites_true_elim (c : Crypto) (tok : AuthToken)
    (target : AuthPayload) (pad : Int)
    (h : verifyPreRequisites c tok target pad = true) :
    dateGT (c.parseDate tok.timestamp)
      (addMinutes (c.parseDate target.timestamp) pad) = false
    ∧ tok.requestPath = target.requestPath
    ∧ ∃ v, c.pubParse tok.pubkey = some v := by
  rw [verifyPreRequisites_def] at h
  cases hd : dateGT (c.parseDate tok.timestamp)
      (addMinutes (c.parseDate target.timestamp) pad) with
  | true => rw [hd] at h; simp at h
  | false =>
    rw [hd] at h
    rw [if_neg (by simp)] at h
    by_cases hp2 : tok.requestPath = target.requestPath
    · rw [if_neg (not_not_intro hp2)] at h
      cases hpp : c.pubParse tok.pubkey with
      | some v => exact ⟨rfl, hp2, v, rfl⟩
      | none => rw [hpp] at h; simp at h
    · rw [if_pos hp2] at h
      simp at h

/-- Joining with a separator, the inverse of `splitChar`. -/
def joinChar (sep : Char) : List (List Char) → List Char
  | [] => []
  | [x] => x
  | x :: xs => x ++ sep :: joinChar sep xs

theorem joinChar_splitChar (sep : Char) :
    ∀ l : List Char, joinChar sep (splitChar sep l) = l
  | [] => rfl
  | c :: cs => by
    rw [splitChar_cons]
    by_cases h : c = sep
    · rw [if_pos h]
      cases hs : splitChar sep cs with
      | nil => exact absurd hs (splitChar_ne_nil sep cs)
      | cons hd tl =>
        have ih := joinChar_splitChar sep cs
        rw [hs] at ih
        show ([] : List Char) ++ sep :: joinChar sep (hd :: tl) = c :: cs
        rw [List.nil_append, ih, h]
    · rw [if_neg h]
      cases hs : splitChar sep cs with
      | nil => exact absurd hs (splitChar_ne_nil sep cs)
      | cons hd tl =>
        have ih := joinChar_splitChar sep cs
        rw [hs] at ih
        cases tl with
        | nil =>
          show c :: hd = c :: cs
          have hh : hd = cs := ih
          rw [hh]
        | cons t1 ts =>
          show (c :: hd) ++ sep :: joinChar sep (t1 :: ts) = c :: cs
          rw [List.cons_append]
          have hh : hd ++ sep :: joinChar sep (t1 :: ts) = cs := ih
          rw [hh]

/-- Splitting is lossless: a string that parses to a token is exactly the
`|`-join of the token's five fields. -/
theorem parse_join (t : String) (tok : AuthToken)
    (h : parseAuthToken t = some tok) :
    t = tok.pubkey ++ "|" ++ tok.scheme ++ "|" ++ tok.timestamp ++ "|"
      ++ tok.requestPath ++ "|" ++ tok.signature := by
  rcases h5 : jsSplit '|' t with _ | ⟨pk, _ | ⟨sc, _ | ⟨ts, _ | ⟨rp, _ | ⟨sg, _ | ⟨x, l⟩⟩⟩⟩⟩⟩
  · rw [parseAuthToken_length_ne t (by rw [h5]; simp)] at h
    exact absurd h (by simp)
  · rw [parseAuthToken_length_ne t (by rw [h5]; simp)] at h
    exact absurd h (by simp)
  · rw [parseAuthToken_length_ne t (by rw [h5]; simp)] at h
    exact absurd h (by simp)
  · rw [parseAuthToken_length_ne t (by rw [h5]; simp)] at h
    exact absurd h (by simp)
  · rw [parseAuthToken_length_ne t (by rw [h5]; simp)] at h
    exact absurd h (by simp)
  · simp only [parseAuthToken, h5] at h
    norm_num at h
    obtain ⟨-, htok⟩ := h
    subst htok
    have hL : splitChar '|' t.data = [pk.data, sc.data, ts.data, rp.data, sg.data] := by
      have h2 := congrArg (List.map String.data) h5
      simp only [jsSplit, List.map_map] at h2
      have hcomp : (String.data ∘ String.mk) = id := funext fun l2 => rfl
      rw [hcomp, List.map_id] at h2
      exact h2
    have hj := joinChar_splitChar '|' t.data
    rw [hL] at hj
    have hjoin : pk.data ++ '|' :: (sc.data ++ '|' :: (ts.data ++ '|' :: (rp.data
        ++ '|' :: sg.data))) = t.data := hj
    apply string_ext
    rw [← hjoin]
    have d2 : ("|" : String).data = ['|'] := rfl
    simp [String.data_append, d2]
  · rw [parseAuthToken_length_ne t
      (by rw [h5]; simp only [List.length_cons]; omega)] at h
    exact absurd h (by simp)

/-- Every field of a parsed token is free of the `|` delimiter. -/
theorem parse_fields_noBar (t : String) (tok : AuthToken)
    (h : parseAuthToken t = some tok) :
    noBar tok.pubkey ∧ noBar tok.scheme ∧ noBar tok.timestamp
    ∧ noBar tok.requestPath ∧ noBar tok.signature := by
  rcases h5 : jsSplit '|' t with _ | ⟨pk, _ | ⟨sc, _ | ⟨ts, _ | ⟨rp, _ | ⟨sg, _ | ⟨x, l⟩⟩⟩⟩⟩⟩
  · rw [parseAuthToken_length_ne t (by rw [h5]; simp)] at h
    exact absurd h (by simp)
  · rw [parseAuthToken_length_ne t (by rw [h5]; simp)] at h
    exact absurd h (by simp)
  · rw [parseAuthToken_length_ne t (by rw [h5]; simp)] at h
    exact absurd h (by simp)
  · rw [parseAuthToken_length_ne t (by rw [h5]; simp)] at h
    exact absurd h (by simp)
  · rw [parseAuthToken_length_ne t (by rw [h5]; simp)] at h
    exact absurd h (by simp)
  · simp only [parseAuthToken, h5] at h
    norm_num at h
    obtain ⟨-, htok⟩ := h
    subst htok
    exact ⟨jsSplit_pieces '|' t pk (by rw [h5]; simp),
      jsSplit_pieces '|' t sc (by rw [h5]; simp),
      jsSplit_pieces '|' t ts (by rw [h5]; simp),
      jsSplit_pieces '|' t rp (by rw [h5]; simp),
      jsSplit_pieces '|' t sg (by rw [h5]; simp)⟩
  · rw [parseAuthToken_length_ne t
      (by rw [h5]; simp only [List.length_cons]; omega)] at h
    exact absurd h (by simp)

/-- C3, the claim as stated ("yields a pair on which `verifyAuthToken`
returns `false`"), is refuted by a signature-byte flip that makes the
underlying BRC-77 routine throw: the pair below verifies `true`; replacing
the first signature byte by `Z` (same length, one byte changed, all other
fields intact as the parse results show) makes `verifyAuthToken` raise
instead of returning `false`. -/
theorem C3_counterexample :
    verifyAuthToken toyCrypto
      ((getAuthToken toyCrypto "Kwif" "/p" Scheme.brc77 none .utf8 "99").getD "")
      ⟨"/p", "99", none⟩ 5 .utf8 = .ok true
    ∧ parseAuthToken ((getAuthToken toyCrypto "Kwif" "/p" Scheme.brc77 none .utf8 "99").getD "")
        = some ⟨"02P7", "brc77", "99", "/p",
            String.mk ((5 :: (toyArr "/p|99|").map (fun n => n + 256)).map Char.ofNat)⟩
    ∧ parseAuthToken ("02P7|brc77|99|/p|Z" ++
          String.mk (((toyArr "/p|99|").map (fun n => n + 256)).map Char.ofNat))
        = some ⟨"02P7", "brc77", "99", "/p",
            "Z" ++ String.mk (((toyArr "/p|99|").map (fun n => n + 256)).map Char.ofNat)⟩
    ∧ ("Z" ++ String.mk (((toyArr "/p|99|").map (fun n => n + 256)).map Char.ofNat)).length
        = (String.mk ((5 :: (toyArr "/p|99|").map (fun n => n + 256)).map Char.ofNat)).length
    ∧ verifyAuthToken toyCrypto
        ("02P7|brc77|99|/p|Z" ++
          String.mk (((toyArr "/p|99|").map (fun n => n + 256)).map Char.ofNat))
        ⟨"/p", "99", none⟩ 5 .utf8 = .error "SignedMessage.verify" :=
  ⟨by decide, by decide, by decide, by decide, by decide⟩

/-- C3 (amended): on any pair verifying `true`, the token string is exactly
the `|`-join of its five fields; changing the target body (when one is
present) or the target path makes `verifyAuthToken` return `false`; and
replacing the bytes of the token's signature field by any different string —
whether or not the result still parses, e.g. a flip introducing `|` — makes
`verifyAuthToken` return `false` or raise an exception from the scheme's
signature routine.  The hypotheses are the idealised properties of the
trusted library: injective byte decodings, collision-free body hashing,
signature decoding injective where defined, at most one accepted message per
signature (and signature per message), and no exception on structurally
well-formed signatures. -/
theorem C3_tamper_sensitivity (c : Crypto) (s : String) (tok : AuthToken)
    (target : AuthPayload) (pad : Int) (enc : BodyEncoding)
    (hp : parseAuthToken s = some tok)
    (hok : verifyAuthToken c s target pad enc = .ok true)
    (hMsgInj : Function.Injective (c.toArray .utf8))
    (hB64Inj : Function.Injective (c.toArray .base64))
    (hHashInj : ∀ b1 b2 : String,
      bodyHash c enc (some b1) = bodyHash c enc (some b2) → b1 = b2)
    (hCompactInj : ∀ s1 s2 l, c.sigFromCompact s1 = some l →
      c.sigFromCompact s2 = some l → s1 = s2)
    (hBsmMsgU : ∀ m m' l p, c.bsmVerify m l p = true → c.bsmVerify m' l p = true → m = m')
    (hBsmSigU : ∀ m l l' p, c.bsmVerify m l p = true → c.bsmVerify m l' p = true → l = l')
    (hB77MsgU : ∀ m m' a, c.brc77Verify m a = some true →
      c.brc77Verify m' a = some true → m = m')
    (hB77SigU : ∀ m a a', c.brc77Verify m a = some true →
      c.brc77Verify m a' = some true → a = a')
    (hB77Total : ∀ m a, (∃ m0, c.brc77Verify m0 a = some true) →
      (c.brc77Verify m a).isSome = true) :
    s = tok.pubkey ++ "|" ++ tok.scheme ++ "|" ++ tok.timestamp ++ "|"
      ++ tok.requestPath ++ "|" ++ tok.signature
    ∧ (∀ b b' : String, target.body = some b → b' ≠ b →
      verifyAuthToken c s ⟨target.requestPath, target.timestamp, some b'⟩ pad enc
        = .ok false)
    ∧ (∀ p' : String, p' ≠ target.requestPath →
      verifyAuthToken c s ⟨p', target.timestamp, target.body⟩ pad enc = .ok false)
    ∧ (∀ sig' : String, sig' ≠ tok.signature →
      verifyAuthToken c
        (tok.pubkey ++ "|" ++ tok.scheme ++ "|" ++ tok.timestamp ++ "|"
          ++ tok.requestPath ++ "|" ++ sig') target pad enc = .ok false
      ∨ ∃ e, verifyAuthToken c
          (tok.pubkey ++ "|" ++ tok.scheme ++ "|" ++ tok.timestamp ++ "|"
            ++ tok.requestPath ++ "|" ++ sig') target pad enc = .error e) := by
  obtain ⟨tpk, tsc, tts, trp, tsg⟩ := tok
  obtain ⟨tp, tt, tb⟩ := target
  have hjoin : s = tpk ++ "|" ++ tsc ++ "|" ++ tts ++ "|" ++ trp ++ "|" ++ tsg :=
    parse_join s ⟨tpk, tsc, tts, trp, tsg⟩ hp
  obtain ⟨hnbpk, hnbsc, hnbts, hnbrp, hnbsg⟩ :=
    parse_fields_noBar s ⟨tpk, tsc, tts, trp, tsg⟩ hp
  have hscheme := parse_scheme s ⟨tpk, tsc, tts, trp, tsg⟩ hp
  rw [verifyAuthToken_parsed c s ⟨tp, tt, tb⟩ pad enc ⟨tpk, tsc, tts, trp, tsg⟩ hp] at hok
  cases hpreb : verifyPreRequisites c ⟨tpk, tsc, tts, trp, tsg⟩ ⟨tp, tt, tb⟩ pad with
  | false => rw [hpreb] at hok; simp at hok
  | true =>
    rw [hpreb, if_neg (by decide : ¬ ((! true) = true))] at hok
    obtain ⟨hdate, hpath0, v, hv0⟩ :=
      verifyPreRequisites_true_elim c ⟨tpk, tsc, tts, trp, tsg⟩ ⟨tp, tt, tb⟩ pad hpreb
    have hpath : trp = tp := hpath0
    have hv : c.pubParse tpk = some v := hv0
    have part2 : ∀ p' : String, p' ≠ tp →
        verifyAuthToken c s ⟨p', tt, tb⟩ pad enc = .ok false := by
      intro p' hpne
      rw [verifyAuthToken_parsed c s ⟨p', tt, tb⟩ pad enc ⟨tpk, tsc, tts, trp, tsg⟩ hp]
      have hpre3 : verifyPreRequisites c ⟨tpk, tsc, tts, trp, tsg⟩ ⟨p', tt, tb⟩ pad
          = false := by
        rw [verifyPreRequisites_eq]
        cases hd2 : dateGT (c.parseDate tts) (addMinutes (c.parseDate tt) pad) with
        | true => simp
        | false =>
          rw [if_neg (by simp)]
          have hne : trp ≠ p' := by
            rw [hpath]
            exact fun he => hpne he.symm
          rw [if_pos hne]
      rw [hpre3]
      rfl
    -- the unparseable-signature case is scheme independent
    have partSigBar : ∀ sig' : String, ¬ noBar sig' →
        verifyAuthToken c (tpk ++ "|" ++ tsc ++ "|" ++ tts ++ "|" ++ trp ++ "|" ++ sig')
          ⟨tp, tt, tb⟩ pad enc = .ok false := by
      intro sig' hnb
      have hlen : (jsSplit '|' (tpk ++ "|" ++ tsc ++ "|" ++ tts ++ "|" ++ trp ++ "|" ++ sig')).length
          = (tpk ++ "|" ++ tsc ++ "|" ++ tts ++ "|" ++ trp ++ "|" ++ sig').data.count '|' + 1 := by
        unfold jsSplit
        rw [List.length_map]
        exact length_splitChar '|' _
      have hcnt : 5 ≤ (tpk ++ "|" ++ tsc ++ "|" ++ tts ++ "|" ++ trp ++ "|" ++ sig').data.count '|' := by
        have hpos : 0 < sig'.data.count '|' := List.count_pos_iff.mpr (not_not.mp hnb)
        simp only [String.data_append, List.count_append]
        have c2 : ("|" : String).data.count '|' = 1 := by decide
        rw [c2]
        omega
      exact verifyAuthToken_unparsed c _ _ pad enc
        (parseAuthToken_length_ne _ (by omega))
    by_cases hsc : tsc = "bsm"
    · rw [if_pos hsc] at hok
      cases hfc : c.sigFromCompact tsg with
      | none =>
        rw [verifyAuthTokenBSM_eq, hfc] at hok
        simp at hok
      | some l =>
        rw [verifyAuthTokenBSM_ok c enc tpk tsc tts trp tsg tp tt tb l v hfc hv] at hok
        have hver := Except.ok.inj hok
        refine ⟨hjoin, ?_, part2, ?_⟩
        · intro b b' htb hbne
          subst htb
          rw [verifyAuthToken_parsed c s ⟨tp, tt, some b'⟩ pad enc ⟨tpk, tsc, tts, trp, tsg⟩ hp]
          have hpre2 : verifyPreRequisites c ⟨tpk, tsc, tts, trp, tsg⟩ ⟨tp, tt, some b'⟩ pad
              = true := hpreb
          rw [hpre2, if_neg (by decide : ¬ ((! true) = true)), if_pos hsc]
          rw [verifyAuthTokenBSM_ok c enc tpk tsc tts trp tsg tp tt (some b') l v hfc hv]
          have hbvf : c.bsmVerify
              (c.toArray .utf8 (trp ++ "|" ++ tts ++ "|" ++ bodyHash c enc (some b'))) l v
              = false := by
            cases hb2 : c.bsmVerify
                (c.toArray .utf8 (trp ++ "|" ++ tts ++ "|" ++ bodyHash c enc (some b'))) l v with
            | false => rfl
            | true =>
              exfalso
              have hmeq := hBsmMsgU _ _ l v hb2 hver
              have hstr := hMsgInj hmeq
              exact hbne (hHashInj b' b (string_append_left_cancel hstr))
          rw [hbvf]
        · intro sig' hsig'
          by_cases hnb : noBar sig'
          · have hp' : parseAuthToken (tpk ++ "|" ++ tsc ++ "|" ++ tts ++ "|" ++ trp ++ "|" ++ sig')
                = some ⟨tpk, tsc, tts, trp, sig'⟩ :=
              parseAuthToken_build tpk tsc tts trp sig' hnbpk hnbsc hnbts hnbrp hnb hscheme
            rw [verifyAuthToken_parsed c _ ⟨tp, tt, tb⟩ pad enc ⟨tpk, tsc, tts, trp, sig'⟩ hp']
            have hpre4 : verifyPreRequisites c ⟨tpk, tsc, tts, trp, sig'⟩ ⟨tp, tt, tb⟩ pad
                = true := hpreb
            rw [hpre4, if_neg (by decide : ¬ ((! true) = true)), if_pos hsc]
            cases hfc' : c.sigFromCompact sig' with
            | none =>
              right
              exact ⟨"Signature.fromCompact", by rw [verifyAuthTokenBSM_eq, hfc']⟩
            | some l' =>
              left
              have hll' : l' ≠ l := by
                intro he
                exact hsig' (hCompactInj sig' tsg l (he ▸ hfc') hfc)
              have hbvf : c.bsmVerify
                  (c.toArray .utf8 (trp ++ "|" ++ tts ++ "|" ++ bodyHash c enc tb)) l' v
                  = false := by
                cases hb2 : c.bsmVerify
                    (c.toArray .utf8 (trp ++ "|" ++ tts ++ "|" ++ bodyHash c enc tb)) l' v with
                | false => rfl
                | true =>
                  exfalso
                  exact hll' (hBsmSigU _ l l' v hver hb2).symm
              rw [verifyAuthTokenBSM_ok c enc tpk tsc tts trp sig' tp tt tb l' v hfc' hv,
                hbvf]
          · exact Or.inl (partSigBar sig' hnb)
    · rw [if_neg hsc] at hok
      rw [verifyAuthTokenBRC77_eq] at hok
      cases hbv : c.brc77Verify
          (c.toArray .utf8 (trp ++ "|" ++ tts ++ "|" ++ bodyHash c enc tb))
          (c.toArray .base64 tsg) with
      | none => rw [hbv] at hok; simp at hok
      | some bb =>
        rw [hbv] at hok
        have hbb : bb = true := Except.ok.inj hok
        subst hbb
        refine ⟨hjoin, ?_, part2, ?_⟩
        · intro b b' htb hbne
          subst htb
          rw [verifyAuthToken_parsed c s ⟨tp, tt, some b'⟩ pad enc ⟨tpk, tsc, tts, trp, tsg⟩ hp]
          have hpre2 : verifyPreRequisites c ⟨tpk, tsc, tts, trp, tsg⟩ ⟨tp, tt, some b'⟩ pad
              = true := hpreb
          rw [hpre2, if_neg (by decide : ¬ ((! true) = true)), if_neg hsc]
          rw [verifyAuthTokenBRC77_eq]
          cases hbv' : c.brc77Verify
              (c.toArray .utf8 (trp ++ "|" ++ tts ++ "|" ++ bodyHash c enc (some b')))
              (c.toArray .base64 tsg) with
          | none =>
            exfalso
            have htot := hB77Total
              (c.toArray .utf8 (trp ++ "|" ++ tts ++ "|" ++ bodyHash c enc (some b')))
              (c.toArray .base64 tsg) ⟨_, hbv⟩
            rw [hbv'] at htot
            simp at htot
          | some bb' =>
            cases bb' with
            | false => rfl
            | true =>
              exfalso
              have hmeq := hB77MsgU _ _ _ hbv' hbv
              have hstr := hMsgInj hmeq
              exact hbne (hHashInj b' b (string_append_left_cancel hstr))
        · intro sig' hsig'
          by_cases hnb : noBar sig'
          · have hp' : parseAuthToken (tpk ++ "|" ++ tsc ++ "|" ++ tts ++ "|" ++ trp ++ "|" ++ sig')
                = some ⟨tpk, tsc, tts, trp, sig'⟩ :=
              parseAuthToken_build tpk tsc tts trp sig' hnbpk hnbsc hnbts hnbrp hnb hscheme
            rw [verifyAuthToken_parsed c _ ⟨tp, tt, tb⟩ pad enc ⟨tpk, tsc, tts, trp, sig'⟩ hp']
            have hpre4 : verifyPreRequisites c ⟨tpk, tsc, tts, trp, sig'⟩ ⟨tp, tt, tb⟩ pad
                = true := hpreb
            rw [hpre4, if_neg (by decide : ¬ ((! true) = true)), if_neg hsc]
            cases hbv' : c.brc77Verify
                (c.toArray .utf8 (trp ++ "|" ++ tts ++ "|" ++ bodyHash c enc tb))
                (c.toArray .base64 sig') with
            | none =>
              right
              exact ⟨"SignedMessage.verify", by rw [verifyAuthTokenBRC77_eq, hbv']⟩
            | some bb' =>
              left
              rw [verifyAuthTokenBRC77_eq, hbv']
              cases bb' with
              | false => rfl
              | true =>
                exfalso
                have haeq := hB77SigU _ _ _ hbv hbv'
                exact hsig' (hB64Inj haeq).symm
          · exact Or.inl (partSigBar sig' hnb)

/-- The canonical message of the C3 witness instance. -/
def w3Msg : String := specCanonicalMessage "/p" "99" (bodyHash toyCrypto .utf8 (some "B"))

/-- The token string of the C3 witness instance. -/
def w3s : String := (getAuthToken toyCrypto "Kwif" "/p" Scheme.bsm (some "B") .utf8 "99").getD ""

/-- The parsed token of the C3 witness instance. -/
def w3Tok : AuthToken :=
  ⟨"02P7", "bsm", "99", "/p", toyCrypto.bsmSign (toyCrypto.toArray .utf8 w3Msg) 7⟩

theorem C3_tamper_sensitivity_witness :
    parseAuthToken w3s = some w3Tok
    ∧ verifyAuthToken toyCrypto w3s ⟨"/p", "99", some "B"⟩ 5 .utf8 = .ok true
    ∧ w3s = w3Tok.pubkey ++ "|" ++ w3Tok.scheme ++ "|" ++ w3Tok.timestamp ++ "|"
        ++ w3Tok.requestPath ++ "|" ++ w3Tok.signature
    ∧ verifyAuthToken toyCrypto w3s ⟨"/p", "99", some "C"⟩ 5 .utf8 = .ok false
    ∧ verifyAuthToken toyCrypto w3s ⟨"/q", "99", some "B"⟩ 5 .utf8 = .ok false
    ∧ (verifyAuthToken toyCrypto
          (w3Tok.pubkey ++ "|" ++ w3Tok.scheme ++ "|" ++ w3Tok.timestamp ++ "|"
            ++ w3Tok.requestPath ++ "|" ++ "Z") ⟨"/p", "99", some "B"⟩ 5 .utf8 = .ok false
       ∨ ∃ e, verifyAuthToken toyCrypto
          (w3Tok.pubkey ++ "|" ++ w3Tok.scheme ++ "|" ++ w3Tok.timestamp ++ "|"
            ++ w3Tok.requestPath ++ "|" ++ "Z") ⟨"/p", "99", some "B"⟩ 5 .utf8 = .error e)
    ∧ (verifyAuthToken toyCrypto
          (w3Tok.pubkey ++ "|" ++ w3Tok.scheme ++ "|" ++ w3Tok.timestamp ++ "|"
            ++ w3Tok.requestPath ++ "|" ++ "|x") ⟨"/p", "99", some "B"⟩ 5 .utf8 = .ok false
       ∨ ∃ e, verifyAuthToken toyCrypto
          (w3Tok.pubkey ++ "|" ++ w3Tok.scheme ++ "|" ++ w3Tok.timestamp ++ "|"
            ++ w3Tok.requestPath ++ "|" ++ "|x") ⟨"/p", "99", some "B"⟩ 5 .utf8 = .error e) := by
  have h := C3_tamper_sensitivity toyCrypto w3s w3Tok ⟨"/p", "99", some "B"⟩ 5 .utf8
    (by decide) (by decide)
    toy_toArray_utf8_injective toy_toArray_base64_injective
    (fun b1 b2 hh => toy_bodyHash_injective .utf8 rfl b1 b2 hh)
    toy_compact_injective toy_bsm_unique_msg toy_bsm_unique_sig
    toy_brc77_unique_msg toy_brc77_unique_sig toy_b77_total
  exact ⟨by decide, by decide, h.1,
    h.2.1 "B" "C" rfl (by decide),
    h.2.2.1 "/q" (by decide),
    h.2.2.2 "Z" (by decide),
    h.2.2.2 "|x" (by decide)⟩

end BitcoinAuth
